import Mathlib

/-!
# go-simple-geoip: the request / response pipeline

A shallow embedding of the client library (options.go, models.go, client.go,
geoip.go).  Go pointers that may be nil are `Option`s, Go `(value, error)` pairs
keep their shape, mutation of a `url.Values` map is explicit state passing, and a
nil pointer dereference is the outcome `panicked`.

The standard library is a collaborator, not part of the repository.  What the
code needs from it and cannot be written down here (the Unicode case table, the
URL parser behind `http.NewRequest`, the JSON decoder) is gathered in `Lib` and
every definition is parametric in it; the HTTP client is a field of `Client`, as
in the source.

Go strings are taken to be Unicode text, Go `int` and `uint` are `Int` and `Nat`
(the library does no arithmetic on them), and a `url.Values` map is the function
from keys to their value lists.  Every call returns, next to its value, the list of
requests it handed to the HTTP client, so that a statement can speak of the request
on the wire.
-/

set_option linter.dupNamespace false

namespace simplegeoip

/-! ## net/url: query parameters -/

/-- Go `url.Values`, a `map[string][]string`: a key is absent (`none`) or bound to
a list of values. -/
abbrev Values := String → Option (List String)

/-- The empty map `url.Values{}`. -/
def Values.empty : Values := fun _ => none

/-- Go `Values.Set`: the key is bound to the one-element list holding `value`,
whatever it held before. -/
def Values.Set (v : Values) (key value : String) : Values :=
  fun k => if k = key then some [value] else v k

/-- The field `URL.RawQuery`.  The encoded string is kept as the parameter map
that `url.ParseQuery` reads back from it. -/
structure RawQuery where
  params : Values

/-- Go `Values.Encode`: every value of every key is written as `key=value`; a key
bound to no value writes nothing, so it is absent from the encoded query. -/
def Values.Encode (v : Values) : RawQuery :=
  ⟨fun k => match v k with
    | some (x :: xs) => some (x :: xs)
    | _ => none⟩

/-- Go `url.URL`: the query, and everything else (scheme, host, path) as text. -/
structure URL where
  Location : String
  RawQuery : RawQuery

/-- Go `URL.Query`: the parameters parsed from `RawQuery`. -/
def URL.Query (u : URL) : Values := u.RawQuery.params

/-! ## net/http: requests, responses, the client -/

/-- Go `http.Header`, as the list of `Add` calls made on it. -/
abbrev Header := List (String × String)

/-- Go `http.Request`, the fields the library sets. -/
structure Request where
  Method : String
  URL : URL
  Header : Header

/-- Go `http.Response` without its body stream: the status and the headers. -/
structure HTTPResponse where
  StatusCode : Int
  Header : Header
deriving DecidableEq, Repr

/-- Go `context.Context`, an opaque token handed on to the HTTP client. -/
structure Context where
  token : Nat
deriving DecidableEq, Repr

/-! ## models.go -/

/-- Go `float64`, carried as its IEEE 754 bit pattern; no arithmetic is done on it. -/
structure float64 where
  bits : Nat
deriving DecidableEq, Repr

/-- Location is the part of the API response that contains location details. -/
structure Location where
  Country : String := ""
  Region : String := ""
  City : String := ""
  Lat : float64 := ⟨0⟩
  Lng : float64 := ⟨0⟩
  PostalCode : String := ""
  Timezone : String := ""
  GeonameID : Nat := 0
deriving DecidableEq, Repr

/-- AS is an Autonomous System. -/
structure AS where
  ASN : Int := 0
  Name : String := ""
  Route : String := ""
  Domain : String := ""
  Type' : String := ""
deriving DecidableEq, Repr

/-- GeoIPResponse is a response of the API.  `Domains` is a Go slice: `none` is the
nil slice. -/
structure GeoIPResponse where
  IP : String := ""
  Location : Location := {}
  ISP : String := ""
  ConnectionType : String := ""
  Domains : Option (List String) := none
  AS : AS := {}
deriving DecidableEq, Repr

/-- ErrorMessage is an error message. -/
structure ErrorMessage where
  Code : Int
  Message : String
deriving DecidableEq, Repr

/-- ErrorResponse is returned when the response status code is not 2xx. -/
structure ErrorResponse where
  Response : HTTPResponse
  Message : String
deriving DecidableEq, Repr

/-- Go `strconv.Itoa`, also the verb `%d` of `fmt`: the decimal rendering. -/
def Itoa (i : Int) : String :=
  match i with
  | Int.ofNat n => Nat.repr n
  | Int.negSucc n => "-" ++ Nat.repr (n + 1)

/-- The method `ErrorMessage.Error`: `fmt.Sprintf("API error: [%d] %s", Code, Message)`. -/
def ErrorMessage.Error (e : ErrorMessage) : String :=
  "API error: [" ++ Itoa e.Code ++ "] " ++ e.Message

/-- The method `ErrorResponse.Error`. -/
def ErrorResponse.Error (e : ErrorResponse) : String :=
  if e.Message ≠ "" then
    "API failed with status code: " ++ Itoa e.Response.StatusCode ++ " (" ++ e.Message ++ ")"
  else
    "API failed with status code: " ++ Itoa e.Response.StatusCode

/-- A Go `error` value as the library sees it: an error of the standard library
(known by its text), `fmt.Errorf(msg + ": %w", err)`, or one of the two error
types of the package. -/
inductive Error where
  | std (text : String)
  | wrap (msg : String) (err : Error)
  | errorResponse (e : ErrorResponse)
  | errorMessage (e : ErrorMessage)
deriving DecidableEq, Repr

/-- The method `Error()` of an error value. -/
def Error.Error : Error → String
  | Error.std text => text
  | Error.wrap msg err => msg ++ ": " ++ err.Error
  | Error.errorResponse e => e.Error
  | Error.errorMessage e => e.Error

/-! ## geoip.go: data -/

/-- Response is the `http.Response` wrapper with Body saved as a byte slice. -/
structure Response where
  Response : Option HTTPResponse
  Body : List UInt8
deriving DecidableEq, Repr

/-- Struct apiResponse is used for parsing the API response as a model instance. -/
structure apiResponse where
  GeoIPResponse : GeoIPResponse := {}
  Code : Int := 0
  Message : String := ""
deriving DecidableEq, Repr

/-! ## The standard library and the network -/

/-- What the library takes from the Go standard library without defining it. -/
structure Lib where
  /-- Function `unicode.ToUpper` on a rune. -/
  unicodeToUpper : Char → Char
  /-- Call `http.NewRequest(method, u.String(), nil)` on a base URL: the request with
  an empty header, or the error of the URL parser. -/
  httpNewRequest : String → URL → Except Error Request
  /-- Call `json.NewDecoder(bytes.NewReader(raw)).Decode(&response)` on a zero
  `apiResponse`: the filled structure, or the decoder error. -/
  jsonDecode : List UInt8 → Except Error apiResponse

/-- The body stream of a response: the bytes `io.Copy` gets out of it, the error
that ends the reading (`none` at a clean end of stream), and the result of `Close`. -/
structure BodyStream where
  data : List UInt8
  readErr : Option Error
  closeErr : Option Error

/-- The outcome of `http.Client.Do`: an error and no response, or a response with
its body still to be read. -/
inductive RoundTrip where
  | failed (err : Error)
  | response (resp : HTTPResponse) (body : BodyStream)

/-- Go `http.Client`: what `Do` answers to a request sent under a context. -/
abbrev HTTPClient := Context → Request → RoundTrip

/-- Client is the client for the API services. -/
structure Client where
  client : HTTPClient
  userAgent : String
  apiKey : String

/-- Struct geoipServiceOp is the type implementing the GeoipService interface. -/
structure geoipServiceOp where
  client : Client
  baseURL : URL

/-- The value of a call together with the requests it handed to the HTTP client,
in order. -/
structure Traced (α : Type) where
  sent : List Request
  val : α

/-- How a call ends: it returns, or it dereferences a nil pointer. -/
inductive Outcome (α : Type) where
  | returned (val : α)
  | panicked

/-! ## options.go -/

/-- Option adds parameters to the query (Go type `Option`). -/
abbrev QueryOption := Values → Values

/-- Go `strings.ToUpper`: a string of ASCII bytes is returned as it is when it has
no lower-case letter and has its letters `a`..`z` shifted otherwise; any other string
is mapped rune by rune through `unicode.ToUpper`. -/
def ToUpper (lib : Lib) (s : String) : String :=
  if s.data.all (fun c => c.toNat < 128) then
    if s.data.any (fun c => 'a'.toNat ≤ c.toNat && c.toNat ≤ 'z'.toNat) then
      String.mk (s.data.map (fun c =>
        if 'a'.toNat ≤ c.toNat ∧ c.toNat ≤ 'z'.toNat then Char.ofNat (c.toNat - 32) else c))
    else s
  else String.mk (s.data.map lib.unicodeToUpper)

/-- OptionOutputFormat sets Response output format JSON | XML. -/
def OptionOutputFormat (lib : Lib) (outputFormat : String) : QueryOption :=
  fun v => v.Set "outputFormat" (ToUpper lib outputFormat)

/-- OptionIPAddress sets IPv4 or IPv6 to search location by. -/
def OptionIPAddress (value : String) : QueryOption :=
  fun v => v.Set "ipAddress" value

/-- OptionDomain sets the domain name to search location by. -/
def OptionDomain (value : String) : QueryOption :=
  fun v => v.Set "domain" value

/-- OptionEmail sets the email address or domain name to search location by. -/
def OptionEmail (value : String) : QueryOption :=
  fun v => v.Set "email" value

/-- OptionReverseIP sets the parameter for showing domains associated with the IP. -/
def OptionReverseIP (value : Int) : QueryOption :=
  fun v => v.Set "reverseIp" (Itoa value)

/-! ## client.go -/

/-- The constant `mediaType`. -/
def mediaType : String := "application/json"

/-- The constant `userAgent`, `"go-simple-geoip/" + libraryVersion`. -/
def userAgent : String := "go-simple-geoip/" ++ "1.0.0"

/-- NewRequest creates a basic API request. -/
def Client.NewRequest (lib : Lib) (c : Client) (method : String) (u : URL) :
    Except Error Request :=
  match lib.httpNewRequest method u with
  | Except.error err => Except.error err
  | Except.ok req =>
    Except.ok { req with
      Header := req.Header ++
        [("Content-Type", mediaType), ("Accept", mediaType), ("User-Agent", c.userAgent)] }

/-- Do sends the API request and returns the API response: the response, the bytes
written to the writer `v`, and the error. -/
def Client.Do (c : Client) (ctx : Context) (req : Request) :
    Traced (Option HTTPResponse × List UInt8 × Option Error) :=
  ⟨[req],
    match c.client ctx req with
    | RoundTrip.failed err => (none, [], some (Error.wrap "cannot execute request" err))
    | RoundTrip.response resp body =>
      match body.readErr with
      | some err => (some resp, body.data, some (Error.wrap "cannot read response" err))
      | none =>
        match body.closeErr with
        | some rerr => (some resp, body.data, some (Error.wrap "cannot close response" rerr))
        | none => (some resp, body.data, none)⟩

/-- Function checkResponse checks if the response status code is not 2xx. -/
def checkResponse (r : Option HTTPResponse) : Outcome (Option Error) :=
  match r with
  | none => Outcome.panicked
  | some r =>
    if r.StatusCode ≥ 200 ∧ r.StatusCode ≤ 299 then Outcome.returned none
    else Outcome.returned (some (Error.errorResponse { Response := r, Message := "" }))

/-! ## geoip.go -/

/-- Method newRequest creates the API request with default parameters and the
specified apiKey. -/
def geoipServiceOp.newRequest (lib : Lib) (service : geoipServiceOp) : Except Error Request :=
  match service.client.NewRequest lib "GET" service.baseURL with
  | Except.error err => Except.error err
  | Except.ok req =>
    let query := Values.empty.Set "apiKey" service.client.apiKey
    Except.ok { req with URL := { req.URL with RawQuery := query.Encode } }

/-- The loop of `request`: every option is applied to the query, in order. -/
def applyOptions (opts : List QueryOption) (q : Values) : Values :=
  opts.foldl (fun q opt => opt q) q

/-- Method request returns intermediate API response for further actions. -/
def geoipServiceOp.request (lib : Lib) (service : geoipServiceOp) (ctx : Context)
    (opts : List QueryOption) : Traced (Option Response × Option Error) :=
  match service.newRequest lib with
  | Except.error err => ⟨[], (none, some err)⟩
  | Except.ok req =>
    let q := applyOptions opts req.URL.Query
    let req := { req with URL := { req.URL with RawQuery := q.Encode } }
    let done := service.client.Do ctx req
    match done.val with
    | (resp, b, some err) => ⟨done.sent, (some { Response := resp, Body := b }, some err)⟩
    | (resp, b, none) => ⟨done.sent, (some { Response := resp, Body := b }, none)⟩

/-- Function parse parses the raw API response. -/
def parse (lib : Lib) (raw : List UInt8) : Except Error apiResponse :=
  match lib.jsonDecode raw with
  | Except.error err => Except.error (Error.wrap "cannot parse response" err)
  | Except.ok response => Except.ok response

/-- Get returns the parsed API response. -/
def geoipServiceOp.Get (lib : Lib) (service : geoipServiceOp) (ctx : Context)
    (opts : List QueryOption) :
    Traced (Outcome (Option GeoIPResponse × Option Response × Option Error)) :=
  let optsJSON := opts ++ [OptionOutputFormat lib "JSON"]
  let r := service.request lib ctx optsJSON
  ⟨r.sent,
    match r.val with
    | (resp, some err) => Outcome.returned (none, resp, some err)
    | (none, none) => Outcome.panicked
    | (some resp, none) =>
      match parse lib resp.Body with
      | Except.error err => Outcome.returned (none, some resp, some err)
      | Except.ok geoipResp =>
        if geoipResp.Message ≠ "" ∨ geoipResp.Code ≠ 0 then
          Outcome.returned (none, none,
            some (Error.errorMessage { Code := geoipResp.Code, Message := geoipResp.Message }))
        else
          Outcome.returned (some geoipResp.GeoIPResponse, some resp, none)⟩

/-- GetRaw returns the raw API response as a Response with Body saved as a byte
slice. -/
def geoipServiceOp.GetRaw (lib : Lib) (service : geoipServiceOp) (ctx : Context)
    (opts : List QueryOption) : Traced (Outcome (Option Response × Option Error)) :=
  let r := service.request lib ctx opts
  ⟨r.sent,
    match r.val with
    | (resp, some err) => Outcome.returned (resp, some err)
    | (none, none) => Outcome.panicked
    | (some resp, none) =>
      match checkResponse resp.Response with
      | Outcome.panicked => Outcome.panicked
      | Outcome.returned (some respErr) => Outcome.returned (some resp, some respErr)
      | Outcome.returned none => Outcome.returned (some resp, none)⟩

/-! ## The option constructors as data -/

/-- A call of one of the five option constructors of options.go with its argument. -/
inductive OptionCall where
  | OutputFormat (outputFormat : String)
  | IPAddress (value : String)
  | Domain (value : String)
  | Email (value : String)
  | ReverseIP (value : Int)
deriving DecidableEq, Repr

/-- The option the call returns. -/
def OptionCall.build (lib : Lib) : OptionCall → QueryOption
  | OptionCall.OutputFormat outputFormat => OptionOutputFormat lib outputFormat
  | OptionCall.IPAddress value => OptionIPAddress value
  | OptionCall.Domain value => OptionDomain value
  | OptionCall.Email value => OptionEmail value
  | OptionCall.ReverseIP value => OptionReverseIP value

/-- The query key named in the body of the constructor. -/
def OptionCall.key : OptionCall → String
  | OptionCall.OutputFormat _ => "outputFormat"
  | OptionCall.IPAddress _ => "ipAddress"
  | OptionCall.Domain _ => "domain"
  | OptionCall.Email _ => "email"
  | OptionCall.ReverseIP _ => "reverseIp"

/-- The value the caller supplied: the string as given, the integer in decimal. -/
def OptionCall.supplied : OptionCall → String
  | OptionCall.OutputFormat outputFormat => outputFormat
  | OptionCall.IPAddress value => value
  | OptionCall.Domain value => value
  | OptionCall.Email value => value
  | OptionCall.ReverseIP value => Itoa value

/-- The value the option passes to `Set`: the supplied one, in upper case for the
output format. -/
def OptionCall.written (lib : Lib) : OptionCall → String
  | OptionCall.OutputFormat outputFormat => ToUpper lib outputFormat
  | c => c.supplied

/-! ## encoding/json: storing a scanned value into the structures of models.go -/

/-- A JSON value as the scanner of `encoding/json` reads it: a number keeps its
literal, an object keeps its members in the order of the text. -/
inductive JSON where
  | null
  | bool (b : Bool)
  | number (literal : String)
  | string (s : String)
  | array (elems : List JSON)
  | object (members : List (String × JSON))

/-- What the decoder takes from the rest of the standard library: the scanner, which
reads the first JSON value of the input or reports the error of the text (the
empty input, a truncated or malformed value); `strconv.ParseFloat(literal, 64)`; and
the `UnmarshalTypeError` for a value that does not fit a Go type. -/
structure Scanner where
  scan : List UInt8 → Except Error JSON
  parseFloat : String → Option float64
  typeError : String → String → Error

/-- The field `Value` of an `UnmarshalTypeError` for a value of the wrong kind. -/
def JSON.describe : JSON → String
  | JSON.null => "null"
  | JSON.bool _ => "bool"
  | JSON.number _ => "number"
  | JSON.string _ => "string"
  | JSON.array _ => "array"
  | JSON.object _ => "object"

/-- The folded form under which `encoding/json` compares a member name with a field
name, ignoring case: ASCII letters in upper case, the Kelvin sign and the long s as
`K` and `S`.  Any other rune folds to a rune outside ASCII and is left as it is,
which changes no comparison with the ASCII field names of models.go. -/
def foldName (s : String) : List Char :=
  s.data.map (fun c =>
    if 'a'.toNat ≤ c.toNat ∧ c.toNat ≤ 'z'.toNat then Char.ofNat (c.toNat - 32)
    else if c.toNat = 0x212A then 'K'
    else if c.toNat = 0x17F then 'S'
    else c)

/-- The value of a run of decimal digits; `none` for the empty run and for any other
character. -/
def parseDigits (cs : List Char) : Option Nat :=
  match cs with
  | [] => none
  | _ :: _ =>
    cs.foldl
      (fun acc c =>
        match acc with
        | some n => if c.isDigit then some (10 * n + (c.toNat - '0'.toNat)) else none
        | none => none)
      (some 0)

/-- Go `strconv.ParseUint(s, 10, 64)`, `none` for an error. -/
def ParseUint (s : String) : Option Nat :=
  match parseDigits s.data with
  | some n => if n < 2 ^ 64 then some n else none
  | none => none

/-- Go `strconv.ParseInt(s, 10, 64)`, `none` for an error. -/
def ParseInt (s : String) : Option Int :=
  match s.data with
  | '-' :: cs =>
    match parseDigits cs with
    | some n => if n ≤ 2 ^ 63 then some (-(n : Int)) else none
    | none => none
  | '+' :: cs =>
    match parseDigits cs with
    | some n => if n < 2 ^ 63 then some (n : Int) else none
    | none => none
  | cs =>
    match parseDigits cs with
    | some n => if n < 2 ^ 63 then some (n : Int) else none
    | none => none

/-- A JSON value stored into a Go `string` that holds `old`: null leaves it, a
string sets it, anything else is a type error. -/
def storeString (sc : Scanner) (v : JSON) (old : String) : Except Error String :=
  match v with
  | JSON.null => Except.ok old
  | JSON.string s => Except.ok s
  | v => Except.error (sc.typeError v.describe "string")

/-- A JSON value stored into a Go `int`: null leaves it, a number whose literal
`strconv.ParseInt` accepts sets it, anything else is a type error. -/
def storeInt (sc : Scanner) (v : JSON) (old : Int) : Except Error Int :=
  match v with
  | JSON.null => Except.ok old
  | JSON.number literal =>
    match ParseInt literal with
    | some n => Except.ok n
    | none => Except.error (sc.typeError ("number " ++ literal) "int")
  | v => Except.error (sc.typeError v.describe "int")

/-- A JSON value stored into a Go `uint`. -/
def storeUint (sc : Scanner) (v : JSON) (old : Nat) : Except Error Nat :=
  match v with
  | JSON.null => Except.ok old
  | JSON.number literal =>
    match ParseUint literal with
    | some n => Except.ok n
    | none => Except.error (sc.typeError ("number " ++ literal) "uint")
  | v => Except.error (sc.typeError v.describe "uint")

/-- A JSON value stored into a Go `float64`. -/
def storeFloat (sc : Scanner) (v : JSON) (old : float64) : Except Error float64 :=
  match v with
  | JSON.null => Except.ok old
  | JSON.number literal =>
    match sc.parseFloat literal with
    | some x => Except.ok x
    | none => Except.error (sc.typeError ("number " ++ literal) "float64")
  | v => Except.error (sc.typeError v.describe "float64")

/-- The elements of a JSON array stored one by one into the elements of a slice: an
element the slice already has is stored into, a new one starts as the empty
string. -/
def storeElems (sc : Scanner) : List JSON → List String → Except Error (List String)
  | [], _ => Except.ok []
  | v :: vs, old =>
    match storeString sc v (old.headD "") with
    | Except.error err => Except.error err
    | Except.ok x =>
      match storeElems sc vs old.tail with
      | Except.error err => Except.error err
      | Except.ok xs => Except.ok (x :: xs)

/-- A JSON value stored into a Go `[]string`: null makes the slice nil, an array
makes it a slice of the length of the array, the empty array an empty slice that is
not nil.  (A slice that an earlier member of the same name left longer keeps in Go
its old elements in memory; the model holds for a name that occurs at most twice.) -/
def storeStrings (sc : Scanner) (v : JSON) (old : Option (List String)) :
    Except Error (Option (List String)) :=
  match v with
  | JSON.null => Except.ok none
  | JSON.array elems =>
    match storeElems sc elems (old.getD []) with
    | Except.error err => Except.error err
    | Except.ok xs => Except.ok (some xs)
  | v => Except.error (sc.typeError v.describe "[]string")

/-- The members of a JSON object stored in order, each by `member`; the first error
ends the decoding and is the error returned. -/
def storeMembers {α : Type} (member : α → String × JSON → Except Error α) :
    List (String × JSON) → α → Except Error α
  | [], x => Except.ok x
  | m :: ms, x =>
    match member x m with
    | Except.error err => Except.error err
    | Except.ok y => storeMembers member ms y

/-- One member of a JSON object stored into a `Location`, by the tag of the field
its name matches; a name that matches no field is skipped. -/
def Location.member (sc : Scanner) (l : Location) (m : String × JSON) :
    Except Error Location :=
  if foldName m.1 = foldName "country" then
    (storeString sc m.2 l.Country).map (fun x => { l with Country := x })
  else if foldName m.1 = foldName "region" then
    (storeString sc m.2 l.Region).map (fun x => { l with Region := x })
  else if foldName m.1 = foldName "city" then
    (storeString sc m.2 l.City).map (fun x => { l with City := x })
  else if foldName m.1 = foldName "lat" then
    (storeFloat sc m.2 l.Lat).map (fun x => { l with Lat := x })
  else if foldName m.1 = foldName "lng" then
    (storeFloat sc m.2 l.Lng).map (fun x => { l with Lng := x })
  else if foldName m.1 = foldName "postalCode" then
    (storeString sc m.2 l.PostalCode).map (fun x => { l with PostalCode := x })
  else if foldName m.1 = foldName "timezone" then
    (storeString sc m.2 l.Timezone).map (fun x => { l with Timezone := x })
  else if foldName m.1 = foldName "geonameId" then
    (storeUint sc m.2 l.GeonameID).map (fun x => { l with GeonameID := x })
  else Except.ok l

/-- A JSON value stored into a `Location`: null leaves it, an object stores its
members, anything else is a type error. -/
def storeLocation (sc : Scanner) (v : JSON) (old : Location) : Except Error Location :=
  match v with
  | JSON.null => Except.ok old
  | JSON.object members => storeMembers (Location.member sc) members old
  | v => Except.error (sc.typeError v.describe "simplegeoip.Location")

/-- One member of a JSON object stored into an `AS`. -/
def AS.member (sc : Scanner) (a : AS) (m : String × JSON) : Except Error AS :=
  if foldName m.1 = foldName "asn" then
    (storeInt sc m.2 a.ASN).map (fun x => { a with ASN := x })
  else if foldName m.1 = foldName "name" then
    (storeString sc m.2 a.Name).map (fun x => { a with Name := x })
  else if foldName m.1 = foldName "route" then
    (storeString sc m.2 a.Route).map (fun x => { a with Route := x })
  else if foldName m.1 = foldName "domain" then
    (storeString sc m.2 a.Domain).map (fun x => { a with Domain := x })
  else if foldName m.1 = foldName "type" then
    (storeString sc m.2 a.Type').map (fun x => { a with Type' := x })
  else Except.ok a

/-- A JSON value stored into an `AS`. -/
def storeAS (sc : Scanner) (v : JSON) (old : AS) : Except Error AS :=
  match v with
  | JSON.null => Except.ok old
  | JSON.object members => storeMembers (AS.member sc) members old
  | v => Except.error (sc.typeError v.describe "simplegeoip.AS")

/-- One member of a JSON object stored into an `apiResponse`, whose fields are those
of the embedded `GeoIPResponse` and `code` and `error`. -/
def apiResponse.member (sc : Scanner) (r : apiResponse) (m : String × JSON) :
    Except Error apiResponse :=
  if foldName m.1 = foldName "ip" then
    (storeString sc m.2 r.GeoIPResponse.IP).map
      (fun x => { r with GeoIPResponse := { r.GeoIPResponse with IP := x } })
  else if foldName m.1 = foldName "location" then
    (storeLocation sc m.2 r.GeoIPResponse.Location).map
      (fun x => { r with GeoIPResponse := { r.GeoIPResponse with Location := x } })
  else if foldName m.1 = foldName "isp" then
    (storeString sc m.2 r.GeoIPResponse.ISP).map
      (fun x => { r with GeoIPResponse := { r.GeoIPResponse with ISP := x } })
  else if foldName m.1 = foldName "connectionType" then
    (storeString sc m.2 r.GeoIPResponse.ConnectionType).map
      (fun x => { r with GeoIPResponse := { r.GeoIPResponse with ConnectionType := x } })
  else if foldName m.1 = foldName "domains" then
    (storeStrings sc m.2 r.GeoIPResponse.Domains).map
      (fun x => { r with GeoIPResponse := { r.GeoIPResponse with Domains := x } })
  else if foldName m.1 = foldName "as" then
    (storeAS sc m.2 r.GeoIPResponse.AS).map
      (fun x => { r with GeoIPResponse := { r.GeoIPResponse with AS := x } })
  else if foldName m.1 = foldName "code" then
    (storeInt sc m.2 r.Code).map (fun x => { r with Code := x })
  else if foldName m.1 = foldName "error" then
    (storeString sc m.2 r.Message).map (fun x => { r with Message := x })
  else Except.ok r

/-- A JSON value stored into an `apiResponse`. -/
def storeApiResponse (sc : Scanner) (v : JSON) (old : apiResponse) :
    Except Error apiResponse :=
  match v with
  | JSON.null => Except.ok old
  | JSON.object members => storeMembers (apiResponse.member sc) members old
  | v => Except.error (sc.typeError v.describe "simplegeoip.apiResponse")

/-- Call `json.NewDecoder(bytes.NewReader(raw)).Decode(&response)` of `parse`: the
first JSON value of the input is scanned and stored into the zero `apiResponse`. -/
def Decode (sc : Scanner) (raw : List UInt8) : Except Error apiResponse :=
  match sc.scan raw with
  | Except.error err => Except.error err
  | Except.ok v => storeApiResponse sc v {}

/-- The JSON object in which an autonomous system has all its zero values. -/
def zeroAS : JSON :=
  JSON.object
    [("asn", JSON.number "0"), ("name", JSON.string ""), ("route", JSON.string ""),
      ("domain", JSON.string ""), ("type", JSON.string "")]

/-! ## The fixtures of client_test.go -/

/-- ASCII text as bytes. -/
def bytes (s : String) : List UInt8 := s.data.map (fun c => UInt8.ofNat c.toNat)

/-- The test server `dummyServer`: the answer depends on the path of the request
alone.  A handler that panics closes the connection. -/
def dummyServer (resp respUnparsable respErr : List UInt8) : HTTPClient :=
  fun _ req =>
    if req.URL.Location = "/Geoip/ok" then
      RoundTrip.response ⟨200, []⟩ ⟨resp, none, none⟩
    else if req.URL.Location = "/Geoip/error" then
      RoundTrip.response ⟨499, []⟩ ⟨respErr, none, none⟩
    else if req.URL.Location = "/Geoip/500" then
      RoundTrip.response ⟨500, []⟩ ⟨respUnparsable, none, none⟩
    else if req.URL.Location = "/Geoip/partial" then
      RoundTrip.response ⟨200, []⟩ ⟨resp.take (resp.length - 10), none, none⟩
    else if req.URL.Location = "/Geoip/partial2" then
      RoundTrip.response ⟨200, [("Content-Length", Itoa resp.length)]⟩
        ⟨resp.take (resp.length - 10), some (Error.std "unexpected EOF"), none⟩
    else if req.URL.Location = "/Geoip/unparsable" then
      RoundTrip.response ⟨200, []⟩ ⟨respUnparsable, none, none⟩
    else RoundTrip.failed (Error.std "EOF")

/-- A success body of the service. -/
def testResp : List UInt8 := bytes "\x7b\"ip\":\"8.8.8.8\"\x7d"

/-- The constant `respUnparsable` of the tests. -/
def testRespUnparsable : List UInt8 := bytes "<?xml version=\"1.0\" encoding=\"utf-8\"?><>"

/-- The constant `errResp` of the tests. -/
def testErrResp : List UInt8 := bytes "\x7b\"code\":499,\"error\":\"test error message\"\x7d"

/-- The standard library on the fixtures: `encoding/json` on the three bodies and on
the truncated success body, as the tests record it; letters outside ASCII are left
alone by the case table. -/
def testLib : Lib where
  unicodeToUpper := fun c => c
  httpNewRequest := fun method u => Except.ok ⟨method, u, []⟩
  jsonDecode := fun raw =>
    if raw = testResp then Except.ok { GeoIPResponse := { IP := "8.8.8.8" } }
    else if raw = testErrResp then Except.ok { Code := 499, Message := "test error message" }
    else if raw = testRespUnparsable then
      Except.error (Error.std "invalid character '<' looking for beginning of value")
    else Except.error (Error.std "unexpected EOF")

/-- The function `newAPI` of the tests on the test server: a client with the test
key whose base URL has the path `link`. -/
def newAPI (link : String) : geoipServiceOp :=
  { client :=
      { client := dummyServer testResp testRespUnparsable testErrResp,
        userAgent := userAgent,
        apiKey := "at_LoremIpsumDolorSitAmetConsect" },
    baseURL := ⟨link, Values.empty.Encode⟩ }

/-- The context `context.Background()`. -/
def background : Context := ⟨0⟩


/-! ## Bodies with and without the optional fields -/

/-- A success body whose location has no geonameId. -/
def testRespLocation : List UInt8 :=
  bytes "\x7b\"ip\":\"8.8.8.8\",\"location\":\x7b\"country\":\"US\"\x7d\x7d"

/-- The same body with geonameId 0. -/
def testRespLocationZero : List UInt8 :=
  bytes "\x7b\"ip\":\"8.8.8.8\",\"location\":\x7b\"country\":\"US\",\"geonameId\":0\x7d\x7d"

/-- The body `testResp` with an autonomous system of zero values. -/
def testRespASZero : List UInt8 :=
  bytes ("\x7b\"ip\":\"8.8.8.8\",\"as\":\x7b\"asn\":0,\"name\":\"\",\"route\":\"\","
    ++ "\"domain\":\"\",\"type\":\"\"\x7d\x7d")

/-- The body `testResp` with an empty list of domains. -/
def testRespDomainsEmpty : List UInt8 := bytes "\x7b\"ip\":\"8.8.8.8\",\"domains\":[]\x7d"

/-- The scanner and the number parser on the bodies above, which hold no number but
0, and the text of a type error. -/
def testScanner : Scanner where
  scan := fun raw =>
    if raw = testResp then
      Except.ok (JSON.object [("ip", JSON.string "8.8.8.8")])
    else if raw = testRespLocation then
      Except.ok (JSON.object [("ip", JSON.string "8.8.8.8"),
        ("location", JSON.object [("country", JSON.string "US")])])
    else if raw = testRespLocationZero then
      Except.ok (JSON.object [("ip", JSON.string "8.8.8.8"),
        ("location",
          JSON.object [("country", JSON.string "US"), ("geonameId", JSON.number "0")])])
    else if raw = testRespASZero then
      Except.ok (JSON.object [("ip", JSON.string "8.8.8.8"), ("as", zeroAS)])
    else if raw = testRespDomainsEmpty then
      Except.ok (JSON.object [("ip", JSON.string "8.8.8.8"), ("domains", JSON.array [])])
    else if raw = testRespUnparsable then
      Except.error (Error.std "invalid character '<' looking for beginning of value")
    else Except.error (Error.std "unexpected EOF")
  parseFloat := fun literal => if literal = "0" then some ⟨0⟩ else none
  typeError := fun value goType =>
    Error.std ("json: cannot unmarshal " ++ value ++ " into Go value of type " ++ goType)

/-- The library `testLib` with the decoder built on `testScanner`. -/
def testJSONLib : Lib :=
  { testLib with jsonDecode := Decode testScanner }

/-- The function `newAPI` on a test server whose success body is `resp`, with the
path of the successful request. -/
def newAPIFor (resp : List UInt8) : geoipServiceOp :=
  { client :=
      { client := dummyServer resp testRespUnparsable testErrResp,
        userAgent := userAgent,
        apiKey := "at_LoremIpsumDolorSitAmetConsect" },
    baseURL := ⟨"/Geoip/ok", Values.empty.Encode⟩ }

/-- A network on which the requests that ask for the output format JSON cannot be
executed and every other request gets the success body. -/
def refusingJSON : HTTPClient :=
  fun _ req =>
    if req.URL.Query "outputFormat" = some ["JSON"] then
      RoundTrip.failed (Error.std "connection refused")
    else RoundTrip.response ⟨200, []⟩ ⟨testResp, none, none⟩

/-- The client of `newAPI` on the network `refusingJSON`. -/
def newAPIRefusingJSON : geoipServiceOp :=
  { client :=
      { client := refusingJSON,
        userAgent := userAgent,
        apiKey := "at_LoremIpsumDolorSitAmetConsect" },
    baseURL := ⟨"/Geoip/ok", Values.empty.Encode⟩ }

/-! ## Options: what one option does, and what a sequence does -/

theorem Values.Set_same (v : Values) (key value : String) :
    v.Set key value key = some [value] := by
  simp [Values.Set]

theorem Values.Set_other (v : Values) (key value k : String) (h : k ≠ key) :
    v.Set key value k = v k := by
  simp [Values.Set, h]

theorem OptionCall.build_eq_Set (lib : Lib) (c : OptionCall) (q : Values) :
    c.build lib q = q.Set c.key (c.written lib) := by
  cases c <;> rfl

theorem OptionCall.build_key (lib : Lib) (c : OptionCall) (q : Values) :
    c.build lib q c.key = some [c.written lib] := by
  rw [OptionCall.build_eq_Set, Values.Set_same]

theorem OptionCall.build_other (lib : Lib) (c : OptionCall) (q : Values) (k : String)
    (h : k ≠ c.key) : c.build lib q k = q k := by
  rw [OptionCall.build_eq_Set, Values.Set_other _ _ _ _ h]

theorem applyOptions_nil (q : Values) : applyOptions [] q = q := rfl

theorem applyOptions_cons (opt : QueryOption) (opts : List QueryOption) (q : Values) :
    applyOptions (opt :: opts) q = applyOptions opts (opt q) := rfl

theorem applyOptions_append (xs ys : List QueryOption) (q : Values) :
    applyOptions (xs ++ ys) q = applyOptions ys (applyOptions xs q) := by
  simp [applyOptions, List.foldl_append]

/-- Options that target other keys leave the value of a key as it was. -/
theorem applyOptions_untouched (lib : Lib) (k : String) (cs : List OptionCall)
    (h : ∀ c ∈ cs, c.key ≠ k) (q : Values) :
    applyOptions (cs.map (OptionCall.build lib)) q k = q k := by
  induction cs generalizing q with
  | nil => rfl
  | cons c cs ih =>
    have hc : k ≠ c.key := fun e => h c (List.mem_cons_self c cs) e.symm
    have hcs : ∀ d ∈ cs, d.key ≠ k := fun d hd => h d (List.mem_cons_of_mem c hd)
    rw [List.map_cons, applyOptions_cons, ih hcs, OptionCall.build_other lib c q k hc]

/-- A sequence with an option for a key splits at the last such option. -/
theorem exists_last_targeting (k : String) (cs : List OptionCall)
    (h : ∃ c ∈ cs, c.key = k) :
    ∃ pre o post, cs = pre ++ o :: post ∧ o.key = k ∧ ∀ c ∈ post, c.key ≠ k := by
  induction cs with
  | nil =>
    obtain ⟨c, hc, _⟩ := h
    exact absurd hc (List.not_mem_nil c)
  | cons d ds ih =>
    by_cases hds : ∃ c ∈ ds, c.key = k
    · obtain ⟨pre, o, post, hsplit, hk, hpost⟩ := ih hds
      exact ⟨d :: pre, o, post, by rw [hsplit, List.cons_append], hk, hpost⟩
    · obtain ⟨c, hc, hck⟩ := h
      have hd : d.key = k := by
        rcases List.mem_cons.mp hc with e | hmem
        · rw [← e]; exact hck
        · exact absurd ⟨c, hmem, hck⟩ hds
      exact ⟨[], d, ds, rfl, hd, fun c hmem e => hds ⟨c, hmem, e⟩⟩

/-- The value at a key after a sequence split at the last option for the key. -/
theorem applyOptions_split (lib : Lib) (q : Values) (pre post : List OptionCall)
    (o : OptionCall) (hpost : ∀ c ∈ post, c.key ≠ o.key) :
    applyOptions ((pre ++ o :: post).map (OptionCall.build lib)) q o.key
      = some [o.written lib] := by
  rw [List.map_append, applyOptions_append, List.map_cons, applyOptions_cons,
    applyOptions_untouched lib o.key post hpost, OptionCall.build_key]

/-- C1: for every initial parameter set and every sequence of calls of the five
option constructors, after the options are applied in order every key that some
option of the sequence targets holds exactly one value, the one written by the last
option of the sequence that targets the key. -/
theorem options_last_write_wins (lib : Lib) (q : Values) (calls : List OptionCall)
    (k : String) (h : ∃ c ∈ calls, c.key = k) :
    ∃ pre o post, calls = pre ++ o :: post ∧ o.key = k ∧ (∀ c ∈ post, c.key ≠ k) ∧
      (∀ q0 : Values, o.build lib q0 k = some [o.written lib]) ∧
      applyOptions (calls.map (OptionCall.build lib)) q k = some [o.written lib] := by
  obtain ⟨pre, o, post, hsplit, hk, hpost⟩ := exists_last_targeting k calls h
  subst hk
  refine ⟨pre, o, post, hsplit, rfl, hpost, fun q0 => OptionCall.build_key lib o q0, ?_⟩
  rw [hsplit]
  exact applyOptions_split lib q pre post o hpost

/-- The sequence `XML`, address, `json` ends with the output format `JSON`, whatever
the query held before. -/
theorem options_last_write_wins_witness :
    ∃ pre o post,
      [OptionCall.OutputFormat "XML", OptionCall.IPAddress "8.8.8.8",
        OptionCall.OutputFormat "json"] = pre ++ o :: post ∧
      o.key = "outputFormat" ∧ (∀ c ∈ post, c.key ≠ "outputFormat") ∧
      (∀ q0 : Values, o.build testLib q0 "outputFormat" = some [o.written testLib]) ∧
      applyOptions
        ([OptionCall.OutputFormat "XML", OptionCall.IPAddress "8.8.8.8",
          OptionCall.OutputFormat "json"].map (OptionCall.build testLib))
        (Values.empty.Set "outputFormat" "old") "outputFormat" = some [o.written testLib] :=
  options_last_write_wins testLib (Values.empty.Set "outputFormat" "old")
    [OptionCall.OutputFormat "XML", OptionCall.IPAddress "8.8.8.8",
      OptionCall.OutputFormat "json"] "outputFormat"
    ⟨OptionCall.OutputFormat "XML", by simp, rfl⟩


/-! ## The request that is sent -/

theorem ToUpper_JSON (lib : Lib) : ToUpper lib "JSON" = "JSON" := by
  rfl

theorem ToUpper_XML (lib : Lib) : ToUpper lib "XML" = "XML" := by
  rfl

theorem Values.Encode_single (v : Values) (k value : String) (h : v k = some [value]) :
    v.Encode.params k = some [value] := by
  simp [Values.Encode, h]

/-- The request built by `newRequest` carries the API key and nothing else. -/
theorem newRequest_query (lib : Lib) (service : geoipServiceOp) (req : Request)
    (h : service.newRequest lib = Except.ok req) :
    req.URL.Query = (Values.empty.Set "apiKey" service.client.apiKey).Encode.params := by
  unfold geoipServiceOp.newRequest at h
  split at h
  · cases h
  · cases h
    rfl

/-- The requests `request` hands to the client: none when the request cannot be
built, else the built request with the options applied to its query. -/
theorem request_sent (lib : Lib) (service : geoipServiceOp) (ctx : Context)
    (opts : List QueryOption) :
    (service.request lib ctx opts).sent =
      match service.newRequest lib with
      | Except.error _ => []
      | Except.ok req =>
        [{ req with URL := { req.URL with
            RawQuery := (applyOptions opts req.URL.Query).Encode } }] := by
  unfold geoipServiceOp.request
  split
  · rfl
  · dsimp only
    split <;> rfl

theorem request_sent_mem (lib : Lib) (service : geoipServiceOp) (ctx : Context)
    (opts : List QueryOption) (r : Request)
    (hr : r ∈ (service.request lib ctx opts).sent) :
    ∃ req, service.newRequest lib = Except.ok req ∧
      (service.request lib ctx opts).sent = [r] ∧
      r = { req with URL := { req.URL with
            RawQuery := (applyOptions opts req.URL.Query).Encode } } := by
  rw [request_sent] at hr ⊢
  cases hnew : service.newRequest lib with
  | error err =>
    rw [hnew] at hr
    exact absurd hr (List.not_mem_nil r)
  | ok req =>
    rw [hnew] at hr
    have e := List.mem_singleton.mp hr
    exact ⟨req, rfl, by rw [e], e⟩

theorem Get_sent (lib : Lib) (service : geoipServiceOp) (ctx : Context)
    (opts : List QueryOption) :
    (service.Get lib ctx opts).sent =
      (service.request lib ctx (opts ++ [OptionOutputFormat lib "JSON"])).sent := rfl

theorem GetRaw_sent (lib : Lib) (service : geoipServiceOp) (ctx : Context)
    (opts : List QueryOption) :
    (service.GetRaw lib ctx opts).sent = (service.request lib ctx opts).sent := rfl

/-- C2: whatever options the caller passes to Get, the request that Get hands to the
HTTP client is the only one it sends and its query has outputFormat equal to
exactly JSON. -/
theorem Get_forces_JSON (lib : Lib) (service : geoipServiceOp) (ctx : Context)
    (opts : List QueryOption) (r : Request) (hr : r ∈ (service.Get lib ctx opts).sent) :
    (service.Get lib ctx opts).sent = [r] ∧ r.URL.Query "outputFormat" = some ["JSON"] := by
  rw [Get_sent] at hr ⊢
  obtain ⟨req, _, hsent, hreq⟩ := request_sent_mem lib service ctx _ r hr
  refine ⟨hsent, ?_⟩
  rw [hreq]
  show (applyOptions (opts ++ [OptionOutputFormat lib "JSON"]) req.URL.Query).Encode.params
    "outputFormat" = some ["JSON"]
  apply Values.Encode_single
  rw [applyOptions_append, applyOptions_cons, applyOptions_nil]
  show Values.Set _ "outputFormat" (ToUpper lib "JSON") "outputFormat" = some ["JSON"]
  rw [Values.Set_same, ToUpper_JSON]

/-- The example of the repository: the caller asks for XML and an address, the
one request on the wire asks for JSON. -/
theorem Get_forces_JSON_witness :
    ((newAPI "/Geoip/ok").Get testLib background
        [OptionOutputFormat testLib "XML", OptionIPAddress "8.8.8.8"]).sent.map
      (fun r => r.URL.Query "outputFormat") = [some ["JSON"]] := by
  have h := Get_forces_JSON testLib (newAPI "/Geoip/ok") background
    [OptionOutputFormat testLib "XML", OptionIPAddress "8.8.8.8"]
    ⟨"GET",
      ⟨"/Geoip/ok",
        (applyOptions
          [OptionOutputFormat testLib "XML", OptionIPAddress "8.8.8.8",
            OptionOutputFormat testLib "JSON"]
          (Values.empty.Set "apiKey" "at_LoremIpsumDolorSitAmetConsect").Encode.params).Encode⟩,
      [("Content-Type", mediaType), ("Accept", mediaType), ("User-Agent", userAgent)]⟩
    (List.mem_singleton.mpr rfl)
  rw [h.1, List.map_cons, List.map_nil, h.2]


theorem OptionCall.key_ne_apiKey (c : OptionCall) : c.key ≠ "apiKey" := by
  cases c <;> simp [OptionCall.key]

/-- The query of a request that `request` sends for constructor-built options has
the configured key under apiKey. -/
theorem request_sent_apiKey (lib : Lib) (service : geoipServiceOp) (ctx : Context)
    (calls : List OptionCall) (r : Request)
    (hr : r ∈ (service.request lib ctx (calls.map (OptionCall.build lib))).sent) :
    r.URL.Query "apiKey" = some [service.client.apiKey] := by
  obtain ⟨req, hnew, _, hreq⟩ := request_sent_mem lib service ctx _ r hr
  rw [hreq]
  show (applyOptions (calls.map (OptionCall.build lib)) req.URL.Query).Encode.params "apiKey"
    = some [service.client.apiKey]
  apply Values.Encode_single
  rw [applyOptions_untouched lib "apiKey" calls (fun c _ => c.key_ne_apiKey),
    newRequest_query lib service req hnew]
  apply Values.Encode_single
  exact Values.Set_same _ _ _

/-- C3: for every configured API key and every sequence of calls of the five option
constructors, a request sent by request, by Get or by GetRaw has in its query the
key apiKey bound to exactly one value, the configured API key. -/
theorem apiKey_is_kept (lib : Lib) (service : geoipServiceOp) (ctx : Context)
    (calls : List OptionCall) (r : Request)
    (hr : r ∈ (service.request lib ctx (calls.map (OptionCall.build lib))).sent ∨
      r ∈ (service.Get lib ctx (calls.map (OptionCall.build lib))).sent ∨
      r ∈ (service.GetRaw lib ctx (calls.map (OptionCall.build lib))).sent) :
    r.URL.Query "apiKey" = some [service.client.apiKey] := by
  rcases hr with h | h | h
  · exact request_sent_apiKey lib service ctx calls r h
  · have e : calls.map (OptionCall.build lib) ++ [OptionOutputFormat lib "JSON"]
        = (calls ++ [OptionCall.OutputFormat "JSON"]).map (OptionCall.build lib) := by
      rw [List.map_append]; rfl
    rw [Get_sent, e] at h
    exact request_sent_apiKey lib service ctx _ r h
  · rw [GetRaw_sent] at h
    exact request_sent_apiKey lib service ctx calls r h

/-- The test client with every kind of option: the request of GetRaw still carries
the test key. -/
theorem apiKey_is_kept_witness :
    ((newAPI "/Geoip/ok").GetRaw testLib background
        ([OptionCall.OutputFormat "xml", OptionCall.IPAddress "8.8.8.8",
          OptionCall.Domain "whoisxmlapi.com", OptionCall.Email "support@whoisxmlapi.com",
          OptionCall.ReverseIP 0].map (OptionCall.build testLib))).sent.map
      (fun r => r.URL.Query "apiKey") = [some ["at_LoremIpsumDolorSitAmetConsect"]] := by
  have h := apiKey_is_kept testLib (newAPI "/Geoip/ok") background
    [OptionCall.OutputFormat "xml", OptionCall.IPAddress "8.8.8.8",
      OptionCall.Domain "whoisxmlapi.com", OptionCall.Email "support@whoisxmlapi.com",
      OptionCall.ReverseIP 0]
    ⟨"GET",
      ⟨"/Geoip/ok",
        (applyOptions
          ([OptionCall.OutputFormat "xml", OptionCall.IPAddress "8.8.8.8",
            OptionCall.Domain "whoisxmlapi.com", OptionCall.Email "support@whoisxmlapi.com",
            OptionCall.ReverseIP 0].map (OptionCall.build testLib))
          (Values.empty.Set "apiKey" "at_LoremIpsumDolorSitAmetConsect").Encode.params).Encode⟩,
      [("Content-Type", mediaType), ("Accept", mediaType), ("User-Agent", userAgent)]⟩
    (Or.inr (Or.inr (List.mem_singleton.mpr rfl)))
  exact congrArg (fun x => [x]) h

/-! ## One option -/

/-- C10, as stated, fails: the option built by OptionOutputFormat from the
value json writes JSON, not the value as given. -/
theorem OptionOutputFormat_not_as_given :
    OptionOutputFormat testLib "json" Values.empty "outputFormat" = some ["JSON"] ∧
    OptionOutputFormat testLib "json" Values.empty "outputFormat" ≠ some ["json"] := by
  constructor
  · rfl
  · show some [ToUpper testLib "json"] ≠ some ["json"]
    decide

/-- C10, amended: each of the five options binds its own key to exactly one value
and leaves every other key as it was; the value is the string as given for
ipAddress, domain and email, the integer in decimal for reverseIp, and the string
in upper case (strings.ToUpper) for outputFormat, which leaves JSON and XML as
given. -/
theorem option_sets_one_key (lib : Lib) (q : Values) :
    (∀ s k, OptionOutputFormat lib s q k
      = if k = "outputFormat" then some [ToUpper lib s] else q k) ∧
    (∀ s k, OptionIPAddress s q k = if k = "ipAddress" then some [s] else q k) ∧
    (∀ s k, OptionDomain s q k = if k = "domain" then some [s] else q k) ∧
    (∀ s k, OptionEmail s q k = if k = "email" then some [s] else q k) ∧
    (∀ n k, OptionReverseIP n q k = if k = "reverseIp" then some [Itoa n] else q k) ∧
    ToUpper lib "JSON" = "JSON" ∧ ToUpper lib "XML" = "XML" :=
  ⟨fun _ _ => rfl, fun _ _ => rfl, fun _ _ => rfl, fun _ _ => rfl, fun _ _ => rfl,
    ToUpper_JSON lib, ToUpper_XML lib⟩


/-! ## The transport step -/

/-- Both branches of `request` wrap what `Do` returned: the response and the buffer
go into the raw result, the error is handed on. -/
theorem request_val (lib : Lib) (service : geoipServiceOp) (ctx : Context)
    (opts : List QueryOption) (r : Request)
    (hr : r ∈ (service.request lib ctx opts).sent) :
    (service.request lib ctx opts).val =
      (some { Response := (service.client.Do ctx r).val.1,
              Body := (service.client.Do ctx r).val.2.1 },
        (service.client.Do ctx r).val.2.2) := by
  obtain ⟨req, hnew, _, hreq⟩ := request_sent_mem lib service ctx opts r hr
  subst hreq
  unfold geoipServiceOp.request
  rw [hnew]
  dsimp only
  split <;> rename_i h <;> rw [h]

theorem Do_response (c : Client) (ctx : Context) (r : Request) (resp : HTTPResponse)
    (data : List UInt8) (h : c.client ctx r = RoundTrip.response resp ⟨data, none, none⟩) :
    (c.Do ctx r).val = (some resp, data, none) := by
  simp [Client.Do, h]

theorem Do_failed (c : Client) (ctx : Context) (r : Request) (e : Error)
    (h : c.client ctx r = RoundTrip.failed e) :
    (c.Do ctx r).val = (none, [], some (Error.wrap "cannot execute request" e)) := by
  simp [Client.Do, h]

theorem Do_read_error (c : Client) (ctx : Context) (r : Request) (resp : HTTPResponse)
    (body : BodyStream) (e : Error) (h : c.client ctx r = RoundTrip.response resp body)
    (hread : body.readErr = some e) :
    (c.Do ctx r).val = (some resp, body.data, some (Error.wrap "cannot read response" e)) := by
  simp [Client.Do, h, hread]

/-- A request answered by a response whose body is read and closed cleanly. -/
theorem request_response (lib : Lib) (service : geoipServiceOp) (ctx : Context)
    (opts : List QueryOption) (r : Request) (resp : HTTPResponse) (data : List UInt8)
    (hr : r ∈ (service.request lib ctx opts).sent)
    (h : service.client.client ctx r = RoundTrip.response resp ⟨data, none, none⟩) :
    (service.request lib ctx opts).val = (some ⟨some resp, data⟩, none) := by
  rw [request_val lib service ctx opts r hr, Do_response service.client ctx r resp data h]

/-- Get after a transport step without error: the parse and the classification. -/
theorem Get_val_of_response (lib : Lib) (service : geoipServiceOp) (ctx : Context)
    (opts : List QueryOption) (r : Request) (resp : HTTPResponse) (body : List UInt8)
    (hr : r ∈ (service.Get lib ctx opts).sent)
    (h : service.client.client ctx r = RoundTrip.response resp ⟨body, none, none⟩) :
    (service.Get lib ctx opts).val =
      match parse lib body with
      | Except.error err => Outcome.returned (none, some ⟨some resp, body⟩, some err)
      | Except.ok geoipResp =>
        if geoipResp.Message ≠ "" ∨ geoipResp.Code ≠ 0 then
          Outcome.returned (none, none,
            some (Error.errorMessage { Code := geoipResp.Code, Message := geoipResp.Message }))
        else
          Outcome.returned (some geoipResp.GeoIPResponse, some ⟨some resp, body⟩, none) := by
  rw [Get_sent] at hr
  have hv := request_response lib service ctx _ r resp body hr h
  unfold geoipServiceOp.Get
  simp only [hv]

/-- C4: when the transport succeeded and the body decodes with a non-zero code or a
non-empty error message, whatever the success fields hold, Get returns a nil parsed
result, a nil raw response and the ErrorMessage error with exactly that code and
message, whose text is "API error: [code] message". -/
theorem Get_application_error (lib : Lib) (service : geoipServiceOp) (ctx : Context)
    (opts : List QueryOption) (r : Request) (resp : HTTPResponse) (body : List UInt8)
    (a : apiResponse)
    (hr : r ∈ (service.Get lib ctx opts).sent)
    (hclient : service.client.client ctx r = RoundTrip.response resp ⟨body, none, none⟩)
    (hdecode : lib.jsonDecode body = Except.ok a)
    (herr : a.Code ≠ 0 ∨ a.Message ≠ "") :
    (service.Get lib ctx opts).val
      = Outcome.returned (none, none, some (Error.errorMessage ⟨a.Code, a.Message⟩)) ∧
    (Error.errorMessage ⟨a.Code, a.Message⟩).Error
      = "API error: [" ++ Itoa a.Code ++ "] " ++ a.Message := by
  refine ⟨?_, rfl⟩
  rw [Get_val_of_response lib service ctx opts r resp body hr hclient]
  simp only [parse, hdecode]
  rw [if_pos (Or.symm herr)]

/-- The test "could not process request": status 499 and the body with code 499 and
the message "test error message". -/
theorem Get_application_error_witness :
    ((newAPI "/Geoip/error").Get testLib background []).val
      = Outcome.returned (none, none,
          some (Error.errorMessage ⟨499, "test error message"⟩)) ∧
    (Error.errorMessage ⟨499, "test error message"⟩).Error
      = "API error: [499] test error message" := by
  have h := Get_application_error testLib (newAPI "/Geoip/error") background []
    ⟨"GET",
      ⟨"/Geoip/error",
        (applyOptions [OptionOutputFormat testLib "JSON"]
          (Values.empty.Set "apiKey" "at_LoremIpsumDolorSitAmetConsect").Encode.params).Encode⟩,
      [("Content-Type", mediaType), ("Accept", mediaType), ("User-Agent", userAgent)]⟩
    ⟨499, []⟩ testErrResp { Code := 499, Message := "test error message" }
    (List.mem_singleton.mpr rfl) rfl rfl (Or.inl (by decide))
  exact ⟨h.1, h.2.trans (by decide)⟩

/-- C5: when the transport succeeded and the body decodes with code 0 and an empty
error message, Get returns the decoded success fields as the parsed result, the raw
response holding the full body, and a nil error. -/
theorem Get_success (lib : Lib) (service : geoipServiceOp) (ctx : Context)
    (opts : List QueryOption) (r : Request) (resp : HTTPResponse) (body : List UInt8)
    (a : apiResponse)
    (hr : r ∈ (service.Get lib ctx opts).sent)
    (hclient : service.client.client ctx r = RoundTrip.response resp ⟨body, none, none⟩)
    (hdecode : lib.jsonDecode body = Except.ok a)
    (hcode : a.Code = 0) (hmsg : a.Message = "") :
    (service.Get lib ctx opts).val
      = Outcome.returned (some a.GeoIPResponse, some ⟨some resp, body⟩, none) := by
  rw [Get_val_of_response lib service ctx opts r resp body hr hclient]
  simp only [parse, hdecode]
  rw [if_neg (fun h => h.elim (fun hm => hm hmsg) (fun hc => hc hcode))]

/-- The test "successful request": status 200 and a success body. -/
theorem Get_success_witness :
    ((newAPI "/Geoip/ok").Get testLib background []).val
      = Outcome.returned
          (some { IP := "8.8.8.8" }, some ⟨some ⟨200, []⟩, testResp⟩, none) :=
  Get_success testLib (newAPI "/Geoip/ok") background []
    ⟨"GET",
      ⟨"/Geoip/ok",
        (applyOptions [OptionOutputFormat testLib "JSON"]
          (Values.empty.Set "apiKey" "at_LoremIpsumDolorSitAmetConsect").Encode.params).Encode⟩,
      [("Content-Type", mediaType), ("Accept", mediaType), ("User-Agent", userAgent)]⟩
    ⟨200, []⟩ testResp { GeoIPResponse := { IP := "8.8.8.8" } }
    (List.mem_singleton.mpr rfl) rfl rfl rfl rfl

/-- C6: when the transport succeeded and the body fails JSON decoding, Get returns
a nil parsed result, the raw response with the buffered body, and an error whose
text is "cannot parse response: " followed by the reason of the decoder; the status
code of the response plays no part. -/
theorem Get_parse_error (lib : Lib) (service : geoipServiceOp) (ctx : Context)
    (opts : List QueryOption) (r : Request) (resp : HTTPResponse) (body : List UInt8)
    (e : Error)
    (hr : r ∈ (service.Get lib ctx opts).sent)
    (hclient : service.client.client ctx r = RoundTrip.response resp ⟨body, none, none⟩)
    (hdecode : lib.jsonDecode body = Except.error e) :
    (service.Get lib ctx opts).val
      = Outcome.returned
          (none, some ⟨some resp, body⟩, some (Error.wrap "cannot parse response" e)) ∧
    (Error.wrap "cannot parse response" e).Error = "cannot parse response: " ++ e.Error := by
  refine ⟨?_, ?_⟩
  · rw [Get_val_of_response lib service ctx opts r resp body hr hclient]
    simp only [parse, hdecode]
  · simp [Error.Error, String.append_assoc]

/-- The test "non 200 status code": status 500 and an XML body. -/
theorem Get_parse_error_witness :
    ((newAPI "/Geoip/500").Get testLib background []).val
      = Outcome.returned
          (none, some ⟨some ⟨500, []⟩, testRespUnparsable⟩,
            some (Error.wrap "cannot parse response"
              (Error.std "invalid character '<' looking for beginning of value"))) ∧
    (Error.wrap "cannot parse response"
        (Error.std "invalid character '<' looking for beginning of value")).Error
      = "cannot parse response: invalid character '<' looking for beginning of value" := by
  have h := Get_parse_error testLib (newAPI "/Geoip/500") background []
    ⟨"GET",
      ⟨"/Geoip/500",
        (applyOptions [OptionOutputFormat testLib "JSON"]
          (Values.empty.Set "apiKey" "at_LoremIpsumDolorSitAmetConsect").Encode.params).Encode⟩,
      [("Content-Type", mediaType), ("Accept", mediaType), ("User-Agent", userAgent)]⟩
    ⟨500, []⟩ testRespUnparsable
    (Error.std "invalid character '<' looking for beginning of value")
    (List.mem_singleton.mpr rfl) rfl rfl
  exact ⟨h.1, h.2.trans (by decide)⟩


/-! ## The raw path -/

/-- GetRaw after a transport step without error: the status check alone. -/
theorem GetRaw_val_of_response (lib : Lib) (service : geoipServiceOp) (ctx : Context)
    (opts : List QueryOption) (r : Request) (resp : HTTPResponse) (body : List UInt8)
    (hr : r ∈ (service.GetRaw lib ctx opts).sent)
    (h : service.client.client ctx r = RoundTrip.response resp ⟨body, none, none⟩) :
    (service.GetRaw lib ctx opts).val =
      if resp.StatusCode ≥ 200 ∧ resp.StatusCode ≤ 299 then
        Outcome.returned (some ⟨some resp, body⟩, none)
      else
        Outcome.returned
          (some ⟨some resp, body⟩, some (Error.errorResponse ⟨resp, ""⟩)) := by
  rw [GetRaw_sent] at hr
  have hv := request_response lib service ctx opts r resp body hr h
  unfold geoipServiceOp.GetRaw
  simp only [hv, checkResponse]
  split_ifs <;> rfl

theorem ErrorResponse_text (resp : HTTPResponse) :
    (Error.errorResponse ⟨resp, ""⟩).Error
      = "API failed with status code: " ++ Itoa resp.StatusCode := by
  simp [Error.Error, ErrorResponse.Error]

/-- C7: when the transport succeeded, GetRaw returns the response with the buffered
body unchanged, whatever the body holds; its error is nil exactly when the status
code c has 200 <= c <= 299, and otherwise the text of the error is exactly
"API failed with status code: c". -/
theorem GetRaw_status (lib : Lib) (service : geoipServiceOp) (ctx : Context)
    (opts : List QueryOption) (r : Request) (resp : HTTPResponse) (body : List UInt8)
    (hr : r ∈ (service.GetRaw lib ctx opts).sent)
    (hclient : service.client.client ctx r = RoundTrip.response resp ⟨body, none, none⟩) :
    ∃ err : Option Error,
      (service.GetRaw lib ctx opts).val
        = Outcome.returned (some ⟨some resp, body⟩, err) ∧
      (err = none ↔ 200 ≤ resp.StatusCode ∧ resp.StatusCode ≤ 299) ∧
      (∀ e, err = some e →
        e.Error = "API failed with status code: " ++ Itoa resp.StatusCode) := by
  rw [GetRaw_val_of_response lib service ctx opts r resp body hr hclient]
  by_cases hc : resp.StatusCode ≥ 200 ∧ resp.StatusCode ≤ 299
  · refine ⟨none, by rw [if_pos hc], ⟨fun _ => hc, fun _ => rfl⟩, ?_⟩
    intro e he
    cases he
  · refine ⟨some (Error.errorResponse ⟨resp, ""⟩), by rw [if_neg hc], ⟨?_, ?_⟩, ?_⟩
    · intro he
      cases he
    · intro h
      exact absurd h hc
    · intro e he
      cases he
      exact ErrorResponse_text resp

/-- The test "non 200 status code" of GetRaw: status 500, an XML body, the error
"API failed with status code: 500". -/
theorem GetRaw_status_witness :
    ∃ err : Option Error,
      ((newAPI "/Geoip/500").GetRaw testLib background []).val
        = Outcome.returned (some ⟨some ⟨500, []⟩, testRespUnparsable⟩, err) ∧
      (err = none ↔ (200 : Int) ≤ 500 ∧ (500 : Int) ≤ 299) ∧
      (∀ e, err = some e → e.Error = "API failed with status code: " ++ Itoa 500) :=
  GetRaw_status testLib (newAPI "/Geoip/500") background []
    ⟨"GET",
      ⟨"/Geoip/500",
        (applyOptions []
          (Values.empty.Set "apiKey" "at_LoremIpsumDolorSitAmetConsect").Encode.params).Encode⟩,
      [("Content-Type", mediaType), ("Accept", mediaType), ("User-Agent", userAgent)]⟩
    ⟨500, []⟩ testRespUnparsable (List.mem_singleton.mpr rfl) rfl

/-- C8, as stated, fails: on the test "could not process request" of GetRaw (status
499, a body that decodes to code 499 and the message "test error message") the
status error carries an empty message and its text, "API failed with status code:
499", does not hold the message of the body. -/
theorem GetRaw_error_has_no_body_message :
    testLib.jsonDecode testErrResp
      = Except.ok { Code := 499, Message := "test error message" } ∧
    ((newAPI "/Geoip/error").GetRaw testLib background []).val
      = Outcome.returned
          (some ⟨some ⟨499, []⟩, testErrResp⟩,
            some (Error.errorResponse ⟨⟨499, []⟩, ""⟩)) ∧
    (Error.errorResponse ⟨⟨499, []⟩, ""⟩).Error = "API failed with status code: 499" ∧
    ¬ ("test error message".data <:+: (Error.errorResponse ⟨⟨499, []⟩, ""⟩).Error.data) := by
  refine ⟨rfl, rfl, by decide, ?_⟩
  have h : (Error.errorResponse ⟨⟨499, []⟩, ""⟩).Error
      = "API failed with status code: 499" := by decide
  rw [h]
  decide

/-- C8, amended: for every response with a status code outside 200..299, whatever
its body, the status error returned by GetRaw carries the response, hence the
status code, and an empty message; its text is "API failed with status code: c" and
nothing of the body enters it. -/
theorem GetRaw_status_error_message_empty (lib : Lib) (service : geoipServiceOp)
    (ctx : Context) (opts : List QueryOption) (r : Request) (resp : HTTPResponse)
    (body : List UInt8)
    (hr : r ∈ (service.GetRaw lib ctx opts).sent)
    (hclient : service.client.client ctx r = RoundTrip.response resp ⟨body, none, none⟩)
    (hstatus : ¬ (200 ≤ resp.StatusCode ∧ resp.StatusCode ≤ 299)) :
    (service.GetRaw lib ctx opts).val
      = Outcome.returned
          (some ⟨some resp, body⟩,
            some (Error.errorResponse { Response := resp, Message := "" })) ∧
    (Error.errorResponse { Response := resp, Message := "" }).Error
      = "API failed with status code: " ++ Itoa resp.StatusCode := by
  refine ⟨?_, ErrorResponse_text resp⟩
  rw [GetRaw_val_of_response lib service ctx opts r resp body hr hclient, if_neg hstatus]

/-- The test "could not process request" of GetRaw. -/
theorem GetRaw_status_error_message_empty_witness :
    ((newAPI "/Geoip/error").GetRaw testLib background []).val
      = Outcome.returned
          (some ⟨some ⟨499, []⟩, testErrResp⟩,
            some (Error.errorResponse { Response := ⟨499, []⟩, Message := "" })) ∧
    (Error.errorResponse { Response := ⟨499, []⟩, Message := "" }).Error
      = "API failed with status code: 499" := by
  have h := GetRaw_status_error_message_empty testLib (newAPI "/Geoip/error") background []
    ⟨"GET",
      ⟨"/Geoip/error",
        (applyOptions []
          (Values.empty.Set "apiKey" "at_LoremIpsumDolorSitAmetConsect").Encode.params).Encode⟩,
      [("Content-Type", mediaType), ("Accept", mediaType), ("User-Agent", userAgent)]⟩
    ⟨499, []⟩ testErrResp (List.mem_singleton.mpr rfl) rfl (by decide)
  exact ⟨h.1, h.2.trans (by decide)⟩


/-! ## A failed transport step -/

/-- C9: when Do returns an error for the request of Get, Get returns exactly that
error, a nil parsed result and the raw response made of what Do returned; when Do
returns an error for the request of GetRaw, GetRaw returns exactly that error and
the raw response made of what Do returned; either holds on its own, and nothing is
checked, decoded or classified.  When the request cannot be executed Do returns no
HTTP response, an empty body and an error whose text starts with "cannot execute
request: "; when reading the body fails Do returns the response, the bytes read so
far and an error whose text starts with "cannot read response: ", whatever the
status code. -/
theorem transport_error_is_returned (lib : Lib) (service : geoipServiceOp) (ctx : Context)
    (opts : List QueryOption) :
    (∀ (r : Request) (resp : Option HTTPResponse) (buf : List UInt8) (e : Error),
      r ∈ (service.Get lib ctx opts).sent →
      (service.client.Do ctx r).val = (resp, buf, some e) →
      (service.Get lib ctx opts).val = Outcome.returned (none, some ⟨resp, buf⟩, some e)) ∧
    (∀ (r : Request) (resp : Option HTTPResponse) (buf : List UInt8) (e : Error),
      r ∈ (service.GetRaw lib ctx opts).sent →
      (service.client.Do ctx r).val = (resp, buf, some e) →
      (service.GetRaw lib ctx opts).val = Outcome.returned (some ⟨resp, buf⟩, some e)) ∧
    (∀ (c : Client) (r : Request) (e0 : Error), c.client ctx r = RoundTrip.failed e0 →
      (c.Do ctx r).val = (none, [], some (Error.wrap "cannot execute request" e0)) ∧
      (Error.wrap "cannot execute request" e0).Error
        = "cannot execute request: " ++ e0.Error) ∧
    (∀ (c : Client) (r : Request) (resp : HTTPResponse) (body : BodyStream) (e0 : Error),
      c.client ctx r = RoundTrip.response resp body → body.readErr = some e0 →
      (c.Do ctx r).val
        = (some resp, body.data, some (Error.wrap "cannot read response" e0)) ∧
      (Error.wrap "cannot read response" e0).Error
        = "cannot read response: " ++ e0.Error) := by
  refine ⟨?_, ?_, ?_, ?_⟩
  · intro r resp buf e hG hdo
    rw [Get_sent] at hG
    have hv := request_val lib service ctx _ r hG
    rw [hdo] at hv
    unfold geoipServiceOp.Get
    simp only [hv]
  · intro r resp buf e hR hdo
    rw [GetRaw_sent] at hR
    have hv := request_val lib service ctx _ r hR
    rw [hdo] at hv
    unfold geoipServiceOp.GetRaw
    simp only [hv]
  · intro c r e0 h
    exact ⟨Do_failed c ctx r e0 h, by simp [Error.Error, String.append_assoc]⟩
  · intro c r resp body e0 h hread
    exact ⟨Do_read_error c ctx r resp body e0 h hread,
      by simp [Error.Error, String.append_assoc]⟩

/-- On the network that refuses the requests for JSON, Get returns the error of the
request that could not be executed, with an empty raw response, while GetRaw, whose
request asks for no format, succeeds; on the test "partial response 2", where the
body ends ten bytes before the declared length, GetRaw returns the read error and
the bytes read. -/
theorem transport_error_is_returned_witness :
    (newAPIRefusingJSON.Get testLib background []).val
      = Outcome.returned
          (none, some ⟨none, []⟩,
            some (Error.wrap "cannot execute request" (Error.std "connection refused"))) ∧
    (newAPIRefusingJSON.GetRaw testLib background []).val
      = Outcome.returned (some ⟨some ⟨200, []⟩, testResp⟩, none) ∧
    ((newAPI "/Geoip/partial2").GetRaw testLib background []).val
      = Outcome.returned
          (some ⟨some ⟨200, [("Content-Length", Itoa testResp.length)]⟩,
              testResp.take (testResp.length - 10)⟩,
            some (Error.wrap "cannot read response" (Error.std "unexpected EOF"))) ∧
    (Error.wrap "cannot read response" (Error.std "unexpected EOF")).Error
      = "cannot read response: unexpected EOF" := by
  have hG := (transport_error_is_returned testLib newAPIRefusingJSON background []).1
    ⟨"GET",
      ⟨"/Geoip/ok",
        (applyOptions [OptionOutputFormat testLib "JSON"]
          (Values.empty.Set "apiKey" "at_LoremIpsumDolorSitAmetConsect").Encode.params).Encode⟩,
      [("Content-Type", mediaType), ("Accept", mediaType), ("User-Agent", userAgent)]⟩
    none []
    (Error.wrap "cannot execute request" (Error.std "connection refused"))
    (List.mem_singleton.mpr rfl) rfl
  have hR := (transport_error_is_returned testLib (newAPI "/Geoip/partial2")
      background []).2.1
    ⟨"GET",
      ⟨"/Geoip/partial2",
        (applyOptions []
          (Values.empty.Set "apiKey" "at_LoremIpsumDolorSitAmetConsect").Encode.params).Encode⟩,
      [("Content-Type", mediaType), ("Accept", mediaType), ("User-Agent", userAgent)]⟩
    (some ⟨200, [("Content-Length", Itoa testResp.length)]⟩)
    (testResp.take (testResp.length - 10))
    (Error.wrap "cannot read response" (Error.std "unexpected EOF"))
    (List.mem_singleton.mpr rfl) rfl
  exact ⟨hG, rfl, hR, by decide⟩

/-! ## The parsed path does not read the status -/

/-- The parsed result and the error of Get after a clean transport step are those
that the result of `parse` on the body decides; the response enters the raw result
only. -/
theorem Get_same_of_parse (lib : Lib) (s1 s2 : geoipServiceOp) (ctx1 ctx2 : Context)
    (opts1 opts2 : List QueryOption) (r1 r2 : Request) (resp1 resp2 : HTTPResponse)
    (body1 body2 : List UInt8)
    (hr1 : r1 ∈ (s1.Get lib ctx1 opts1).sent)
    (hc1 : s1.client.client ctx1 r1 = RoundTrip.response resp1 ⟨body1, none, none⟩)
    (hr2 : r2 ∈ (s2.Get lib ctx2 opts2).sent)
    (hc2 : s2.client.client ctx2 r2 = RoundTrip.response resp2 ⟨body2, none, none⟩)
    (hparse : parse lib body1 = parse lib body2) :
    ∃ (g : Option GeoIPResponse) (e : Option Error) (raw1 raw2 : Option Response),
      (s1.Get lib ctx1 opts1).val = Outcome.returned (g, raw1, e) ∧
      (s2.Get lib ctx2 opts2).val = Outcome.returned (g, raw2, e) := by
  rw [Get_val_of_response lib s1 ctx1 opts1 r1 resp1 body1 hr1 hc1,
    Get_val_of_response lib s2 ctx2 opts2 r2 resp2 body2 hr2 hc2, hparse]
  cases parse lib body2 with
  | error err =>
    exact ⟨none, some err, some ⟨some resp1, body1⟩, some ⟨some resp2, body2⟩, rfl, rfl⟩
  | ok a =>
    by_cases h : a.Message ≠ "" ∨ a.Code ≠ 0
    · exact ⟨none, some (Error.errorMessage ⟨a.Code, a.Message⟩), none, none,
        by simp only [if_pos h], by simp only [if_pos h]⟩
    · exact ⟨some a.GeoIPResponse, none, some ⟨some resp1, body1⟩,
        some ⟨some resp2, body2⟩, by simp only [if_neg h], by simp only [if_neg h]⟩

/-- C12: for two responses with the same body, whatever their status codes, Get
returns the same parsed result and the same error: the decoded success fields and
a nil error when the body decodes with code 0 and no message, a nil result and the
application error when it decodes with a code or a message, a nil result and the
parse error when it does not decode. -/
theorem Get_ignores_status (lib : Lib) (s1 s2 : geoipServiceOp) (ctx1 ctx2 : Context)
    (opts1 opts2 : List QueryOption) (r1 r2 : Request) (resp1 resp2 : HTTPResponse)
    (body : List UInt8)
    (hr1 : r1 ∈ (s1.Get lib ctx1 opts1).sent)
    (hc1 : s1.client.client ctx1 r1 = RoundTrip.response resp1 ⟨body, none, none⟩)
    (hr2 : r2 ∈ (s2.Get lib ctx2 opts2).sent)
    (hc2 : s2.client.client ctx2 r2 = RoundTrip.response resp2 ⟨body, none, none⟩) :
    ∃ (g : Option GeoIPResponse) (e : Option Error) (raw1 raw2 : Option Response),
      (s1.Get lib ctx1 opts1).val = Outcome.returned (g, raw1, e) ∧
      (s2.Get lib ctx2 opts2).val = Outcome.returned (g, raw2, e) ∧
      (∀ a, lib.jsonDecode body = Except.ok a → a.Code = 0 → a.Message = "" →
        g = some a.GeoIPResponse ∧ e = none) ∧
      (∀ a, lib.jsonDecode body = Except.ok a → a.Code ≠ 0 ∨ a.Message ≠ "" →
        g = none ∧ e = some (Error.errorMessage ⟨a.Code, a.Message⟩)) ∧
      (∀ err, lib.jsonDecode body = Except.error err →
        g = none ∧ e = some (Error.wrap "cannot parse response" err)) := by
  rw [Get_val_of_response lib s1 ctx1 opts1 r1 resp1 body hr1 hc1,
    Get_val_of_response lib s2 ctx2 opts2 r2 resp2 body hr2 hc2]
  unfold parse
  cases hd : lib.jsonDecode body with
  | error err =>
    refine ⟨none, some (Error.wrap "cannot parse response" err),
      some ⟨some resp1, body⟩, some ⟨some resp2, body⟩, rfl, rfl, ?_, ?_, ?_⟩
    · intro a ha
      cases ha
    · intro a ha
      cases ha
    · intro err2 he
      cases he
      exact ⟨rfl, rfl⟩
  | ok a =>
    by_cases h : a.Message ≠ "" ∨ a.Code ≠ 0
    · refine ⟨none, some (Error.errorMessage ⟨a.Code, a.Message⟩), none, none,
        by simp only [if_pos h], by simp only [if_pos h], ?_, ?_, ?_⟩
      · intro b hb hcode hmsg
        cases hb
        exact absurd h (fun h => h.elim (fun hm => hm hmsg) (fun hc => hc hcode))
      · intro b hb _
        cases hb
        exact ⟨rfl, rfl⟩
      · intro err he
        cases he
    · refine ⟨some a.GeoIPResponse, none, some ⟨some resp1, body⟩,
        some ⟨some resp2, body⟩, by simp only [if_neg h], by simp only [if_neg h], ?_, ?_, ?_⟩
      · intro b hb _ _
        cases hb
        exact ⟨rfl, rfl⟩
      · intro b hb hb2
        cases hb
        exact absurd (Or.symm hb2) h
      · intro err he
        cases he

/-- The tests "non 200 status code" and "unparsable response": the same XML body
under the status 500 and under the status 200, the same nil result and the same
parse error. -/
theorem Get_ignores_status_witness :
    ∃ (raw1 raw2 : Option Response),
      ((newAPI "/Geoip/500").Get testLib background []).val
        = Outcome.returned (none, raw1,
            some (Error.wrap "cannot parse response"
              (Error.std "invalid character '<' looking for beginning of value"))) ∧
      ((newAPI "/Geoip/unparsable").Get testLib background []).val
        = Outcome.returned (none, raw2,
            some (Error.wrap "cannot parse response"
              (Error.std "invalid character '<' looking for beginning of value"))) := by
  obtain ⟨g, e, raw1, raw2, h1, h2, _, _, h5⟩ :=
    Get_ignores_status testLib (newAPI "/Geoip/500") (newAPI "/Geoip/unparsable")
      background background [] []
      ⟨"GET",
        ⟨"/Geoip/500",
          (applyOptions [OptionOutputFormat testLib "JSON"]
            (Values.empty.Set "apiKey"
              "at_LoremIpsumDolorSitAmetConsect").Encode.params).Encode⟩,
        [("Content-Type", mediaType), ("Accept", mediaType), ("User-Agent", userAgent)]⟩
      ⟨"GET",
        ⟨"/Geoip/unparsable",
          (applyOptions [OptionOutputFormat testLib "JSON"]
            (Values.empty.Set "apiKey"
              "at_LoremIpsumDolorSitAmetConsect").Encode.params).Encode⟩,
        [("Content-Type", mediaType), ("Accept", mediaType), ("User-Agent", userAgent)]⟩
      ⟨500, []⟩ ⟨200, []⟩ testRespUnparsable
      (List.mem_singleton.mpr rfl) rfl (List.mem_singleton.mpr rfl) rfl
  obtain ⟨hg, he⟩ :=
    h5 (Error.std "invalid character '<' looking for beginning of value") rfl
  subst hg
  subst he
  exact ⟨raw1, raw2, h1, h2⟩

/-! ## Optional fields: absent, or present with the zero value -/

theorem Except_map_ok {ε α β : Type} (f : α → β) (e : Except ε α) (y : β)
    (h : e.map f = Except.ok y) : ∃ x, e = Except.ok x ∧ y = f x := by
  cases e with
  | error err => cases h
  | ok x =>
    cases h
    exact ⟨x, rfl, rfl⟩

theorem storeMembers_cons {α : Type} (member : α → String × JSON → Except Error α)
    (m : String × JSON) (ms : List (String × JSON)) (x : α) :
    storeMembers member (m :: ms) x =
      match member x m with
      | Except.error err => Except.error err
      | Except.ok y => storeMembers member ms y := rfl

theorem storeMembers_append {α : Type} (member : α → String × JSON → Except Error α)
    (ms1 ms2 : List (String × JSON)) (x : α) :
    storeMembers member (ms1 ++ ms2) x =
      match storeMembers member ms1 x with
      | Except.error err => Except.error err
      | Except.ok y => storeMembers member ms2 y := by
  induction ms1 generalizing x with
  | nil => rfl
  | cons m ms ih =>
    rw [List.cons_append, storeMembers_cons, storeMembers_cons]
    cases member x m with
    | error err => rfl
    | ok y => exact ih y

/-- Members that leave a part of the structure alone leave it alone together. -/
theorem storeMembers_keeps {α β : Type} (member : α → String × JSON → Except Error α)
    (part : α → β) (name : String)
    (hstep : ∀ x m y, foldName m.1 ≠ foldName name → member x m = Except.ok y →
      part y = part x)
    (ms : List (String × JSON)) (hms : ∀ m ∈ ms, foldName m.1 ≠ foldName name)
    (x y : α) (h : storeMembers member ms x = Except.ok y) : part y = part x := by
  induction ms generalizing x with
  | nil =>
    cases h
    rfl
  | cons m ms ih =>
    unfold storeMembers at h
    cases hm : member x m with
    | error err =>
      rw [hm] at h
      cases h
    | ok z =>
      rw [hm] at h
      have h1 := hstep x m z (hms m (List.mem_cons_self m ms)) hm
      have h2 := ih (fun m' hm' => hms m' (List.mem_cons_of_mem m hm')) z h
      rw [h2, h1]

theorem apiResponse.member_keeps_AS (sc : Scanner) (r : apiResponse) (m : String × JSON)
    (r' : apiResponse) (hne : foldName m.1 ≠ foldName "as")
    (h : apiResponse.member sc r m = Except.ok r') :
    r'.GeoIPResponse.AS = r.GeoIPResponse.AS := by
  unfold apiResponse.member at h
  split_ifs at h
  all_goals first
    | exact absurd ‹foldName m.1 = foldName "as"› hne
    | (obtain ⟨x, _, rfl⟩ := Except_map_ok _ _ _ h; rfl)
    | (cases h; rfl)

theorem apiResponse.member_keeps_Location (sc : Scanner) (r : apiResponse)
    (m : String × JSON) (r' : apiResponse) (hne : foldName m.1 ≠ foldName "location")
    (h : apiResponse.member sc r m = Except.ok r') :
    r'.GeoIPResponse.Location = r.GeoIPResponse.Location := by
  unfold apiResponse.member at h
  split_ifs at h
  all_goals first
    | exact absurd ‹foldName m.1 = foldName "location"› hne
    | (obtain ⟨x, _, rfl⟩ := Except_map_ok _ _ _ h; rfl)
    | (cases h; rfl)

theorem apiResponse.member_keeps_Domains (sc : Scanner) (r : apiResponse)
    (m : String × JSON) (r' : apiResponse) (hne : foldName m.1 ≠ foldName "domains")
    (h : apiResponse.member sc r m = Except.ok r') :
    r'.GeoIPResponse.Domains = r.GeoIPResponse.Domains := by
  unfold apiResponse.member at h
  split_ifs at h
  all_goals first
    | exact absurd ‹foldName m.1 = foldName "domains"› hne
    | (obtain ⟨x, _, rfl⟩ := Except_map_ok _ _ _ h; rfl)
    | (cases h; rfl)

theorem Location.member_keeps_GeonameID (sc : Scanner) (l : Location) (m : String × JSON)
    (l' : Location) (hne : foldName m.1 ≠ foldName "geonameId")
    (h : Location.member sc l m = Except.ok l') : l'.GeonameID = l.GeonameID := by
  unfold Location.member at h
  split_ifs at h
  all_goals first
    | exact absurd ‹foldName m.1 = foldName "geonameId"› hne
    | (obtain ⟨x, _, rfl⟩ := Except_map_ok _ _ _ h; rfl)
    | (cases h; rfl)

/-- The member as with the object of zero values, stored into a structure whose AS
is zero, changes nothing. -/
theorem apiResponse.member_zeroAS (sc : Scanner) (r : apiResponse)
    (h : r.GeoIPResponse.AS = {}) :
    apiResponse.member sc r ("as", zeroAS) = Except.ok r := by
  obtain ⟨g, code, message⟩ := r
  obtain ⟨ip, location, isp, connectionType, domains, as⟩ := g
  simp only at h
  subst h
  rfl

/-- The member geonameId with the number 0, stored into a location whose GeonameID
is zero, changes nothing. -/
theorem Location.member_zero_geonameId (sc : Scanner) (l : Location)
    (h : l.GeonameID = 0) :
    Location.member sc l ("geonameId", JSON.number "0") = Except.ok l := by
  obtain ⟨country, region, city, lat, lng, postalCode, timezone, geonameID⟩ := l
  simp only at h
  subst h
  rfl

/-- An object that omits as and the same object with as of zero values store the
same structure, or fail with the same error. -/
theorem storeApiResponse_zeroAS (sc : Scanner) (ms1 ms2 : List (String × JSON))
    (homit : ∀ m ∈ ms1 ++ ms2, foldName m.1 ≠ foldName "as") :
    storeApiResponse sc (JSON.object (ms1 ++ ("as", zeroAS) :: ms2)) {}
      = storeApiResponse sc (JSON.object (ms1 ++ ms2)) {} := by
  show storeMembers (apiResponse.member sc) (ms1 ++ ("as", zeroAS) :: ms2) {}
    = storeMembers (apiResponse.member sc) (ms1 ++ ms2) {}
  rw [storeMembers_append, storeMembers_append]
  cases h1 : storeMembers (apiResponse.member sc) ms1 {} with
  | error err => rfl
  | ok y =>
    have hzero : y.GeoIPResponse.AS = {} :=
      storeMembers_keeps (apiResponse.member sc) (fun r => r.GeoIPResponse.AS) "as"
        (fun x m z hne hm => apiResponse.member_keeps_AS sc x m z hne hm) ms1
        (fun m hm => homit m (List.mem_append_left ms2 hm)) {} y h1
    simp only
    rw [storeMembers_cons, apiResponse.member_zeroAS sc y hzero]

/-- A location that omits geonameId and the same location with geonameId 0 store
the same structure into a location whose GeonameID is zero. -/
theorem storeLocation_zero_geonameId (sc : Scanner) (ls1 ls2 : List (String × JSON))
    (old : Location) (hold : old.GeonameID = 0)
    (homit : ∀ m ∈ ls1 ++ ls2, foldName m.1 ≠ foldName "geonameId") :
    storeLocation sc (JSON.object (ls1 ++ ("geonameId", JSON.number "0") :: ls2)) old
      = storeLocation sc (JSON.object (ls1 ++ ls2)) old := by
  show storeMembers (Location.member sc) (ls1 ++ ("geonameId", JSON.number "0") :: ls2) old
    = storeMembers (Location.member sc) (ls1 ++ ls2) old
  rw [storeMembers_append, storeMembers_append]
  cases h1 : storeMembers (Location.member sc) ls1 old with
  | error err => rfl
  | ok l =>
    have hzero : l.GeonameID = 0 := by
      rw [storeMembers_keeps (Location.member sc) (fun l => l.GeonameID) "geonameId"
        (fun x m z hne hm => Location.member_keeps_GeonameID sc x m z hne hm) ls1
        (fun m hm => homit m (List.mem_append_left ls2 hm)) old l h1]
      exact hold
    simp only
    rw [storeMembers_cons, Location.member_zero_geonameId sc l hzero]

theorem apiResponse.member_location (sc : Scanner) (r : apiResponse) (v : JSON) :
    apiResponse.member sc r ("location", v)
      = (storeLocation sc v r.GeoIPResponse.Location).map
          (fun x => { r with GeoIPResponse := { r.GeoIPResponse with Location := x } }) := by
  rfl

/-- An object with one location that omits geonameId and the same object with
geonameId 0 in the location store the same structure, or fail with the same error. -/
theorem storeApiResponse_zero_geonameId (sc : Scanner)
    (ms1 ms2 ls1 ls2 : List (String × JSON))
    (hone : ∀ m ∈ ms1 ++ ms2, foldName m.1 ≠ foldName "location")
    (homit : ∀ m ∈ ls1 ++ ls2, foldName m.1 ≠ foldName "geonameId") :
    storeApiResponse sc
        (JSON.object (ms1 ++
          ("location", JSON.object (ls1 ++ ("geonameId", JSON.number "0") :: ls2)) :: ms2)) {}
      = storeApiResponse sc
          (JSON.object (ms1 ++ ("location", JSON.object (ls1 ++ ls2)) :: ms2)) {} := by
  show storeMembers (apiResponse.member sc) (ms1 ++
      ("location", JSON.object (ls1 ++ ("geonameId", JSON.number "0") :: ls2)) :: ms2) {}
    = storeMembers (apiResponse.member sc)
        (ms1 ++ ("location", JSON.object (ls1 ++ ls2)) :: ms2) {}
  rw [storeMembers_append, storeMembers_append]
  cases h1 : storeMembers (apiResponse.member sc) ms1 {} with
  | error err => rfl
  | ok y =>
    have hloc : y.GeoIPResponse.Location = {} :=
      storeMembers_keeps (apiResponse.member sc) (fun r => r.GeoIPResponse.Location)
        "location" (fun x m z hne hm => apiResponse.member_keeps_Location sc x m z hne hm)
        ms1 (fun m hm => hone m (List.mem_append_left ms2 hm)) {} y h1
    have hzero : y.GeoIPResponse.Location.GeonameID = 0 := by rw [hloc]
    simp only
    rw [storeMembers_cons, storeMembers_cons, apiResponse.member_location,
      apiResponse.member_location,
      storeLocation_zero_geonameId sc ls1 ls2 y.GeoIPResponse.Location hzero homit]

/-- A member that is not domains does the same to a structure whatever its Domains
holds. -/
theorem apiResponse.member_Domains_frame (sc : Scanner) (r : apiResponse)
    (m : String × JSON) (d : Option (List String))
    (hne : foldName m.1 ≠ foldName "domains") :
    apiResponse.member sc
        { r with GeoIPResponse := { r.GeoIPResponse with Domains := d } } m
      = (apiResponse.member sc r m).map
          (fun x => { x with GeoIPResponse := { x.GeoIPResponse with Domains := d } }) := by
  unfold apiResponse.member
  split_ifs
  all_goals first
    | exact absurd ‹foldName m.1 = foldName "domains"› hne
    | rfl
    | (simp only []
       cases storeString sc m.2 _ <;> rfl)
    | (simp only []
       cases storeLocation sc m.2 _ <;> rfl)
    | (simp only []
       cases storeAS sc m.2 _ <;> rfl)
    | (simp only []
       cases storeInt sc m.2 _ <;> rfl)

theorem storeMembers_Domains_frame (sc : Scanner) (ms : List (String × JSON))
    (d : Option (List String)) (hms : ∀ m ∈ ms, foldName m.1 ≠ foldName "domains")
    (r : apiResponse) :
    storeMembers (apiResponse.member sc) ms
        { r with GeoIPResponse := { r.GeoIPResponse with Domains := d } }
      = (storeMembers (apiResponse.member sc) ms r).map
          (fun x => { x with GeoIPResponse := { x.GeoIPResponse with Domains := d } }) := by
  induction ms generalizing r with
  | nil => rfl
  | cons m ms ih =>
    rw [storeMembers_cons, storeMembers_cons,
      apiResponse.member_Domains_frame sc r m d (hms m (List.mem_cons_self m ms))]
    cases apiResponse.member sc r m with
    | error err => rfl
    | ok y => exact ih (fun m' hm' => hms m' (List.mem_cons_of_mem m hm')) y

/-- An object that omits domains stores a nil Domains; the same object with the
empty array stores the same structure with an empty Domains that is not nil. -/
theorem storeApiResponse_empty_domains (sc : Scanner) (ms1 ms2 : List (String × JSON))
    (homit : ∀ m ∈ ms1 ++ ms2, foldName m.1 ≠ foldName "domains") :
    storeApiResponse sc (JSON.object (ms1 ++ ("domains", JSON.array []) :: ms2)) {}
      = (storeApiResponse sc (JSON.object (ms1 ++ ms2)) {}).map
          (fun x => { x with GeoIPResponse := { x.GeoIPResponse with Domains := some [] } }) ∧
    ∀ a, storeApiResponse sc (JSON.object (ms1 ++ ms2)) {} = Except.ok a →
      a.GeoIPResponse.Domains = none := by
  constructor
  · show storeMembers (apiResponse.member sc) (ms1 ++ ("domains", JSON.array []) :: ms2) {}
      = (storeMembers (apiResponse.member sc) (ms1 ++ ms2) {}).map _
    rw [storeMembers_append, storeMembers_append]
    cases h1 : storeMembers (apiResponse.member sc) ms1 {} with
    | error err => rfl
    | ok y =>
      simp only
      rw [storeMembers_cons]
      exact storeMembers_Domains_frame sc ms2 (some [])
        (fun m hm => homit m (List.mem_append_right ms1 hm)) y
  · intro a ha
    exact storeMembers_keeps (apiResponse.member sc) (fun r => r.GeoIPResponse.Domains)
      "domains" (fun x m z hne hm => apiResponse.member_keeps_Domains sc x m z hne hm)
      (ms1 ++ ms2) homit {} a ha

theorem parse_of_Decode (lib : Lib) (sc : Scanner) (hlib : lib.jsonDecode = Decode sc)
    (body : List UInt8) (v : JSON) (hscan : sc.scan body = Except.ok v) :
    parse lib body =
      match storeApiResponse sc v {} with
      | Except.error err => Except.error (Error.wrap "cannot parse response" err)
      | Except.ok response => Except.ok response := by
  unfold parse
  rw [hlib]
  unfold Decode
  rw [hscan]

/-- C11, as stated, fails: the body that omits geonameId and the body that gives
geonameId 0 yield the same parsed result from Get, and so do the body that omits as
and the body that gives as with zero values. -/
theorem absent_geonameId_and_as_read_as_zero :
    ((newAPIFor testRespLocation).Get testJSONLib background []).val
      = Outcome.returned
          (some { IP := "8.8.8.8", Location := { Country := "US" } },
            some ⟨some ⟨200, []⟩, testRespLocation⟩, none) ∧
    ((newAPIFor testRespLocationZero).Get testJSONLib background []).val
      = Outcome.returned
          (some { IP := "8.8.8.8", Location := { Country := "US" } },
            some ⟨some ⟨200, []⟩, testRespLocationZero⟩, none) ∧
    ((newAPIFor testResp).Get testJSONLib background []).val
      = Outcome.returned
          (some { IP := "8.8.8.8" }, some ⟨some ⟨200, []⟩, testResp⟩, none) ∧
    ((newAPIFor testRespASZero).Get testJSONLib background []).val
      = Outcome.returned
          (some { IP := "8.8.8.8" }, some ⟨some ⟨200, []⟩, testRespASZero⟩, none) :=
  ⟨rfl, rfl, rfl, rfl⟩

/-- C11, amended: with the decoder of encoding/json and two bodies that are JSON
objects differing in one optional field only, Get returns the same parsed result
and the same error when the field is as (absent, or the object of zero values) or
geonameId (absent, or 0; the object has one location); when the field is domains
the results differ: the body without it gives a nil Domains, the body with the empty
array gives the same result with an empty Domains that is not nil. -/
theorem optional_fields_absent_or_zero (lib : Lib) (sc : Scanner)
    (hlib : lib.jsonDecode = Decode sc) (s1 s2 : geoipServiceOp) (ctx1 ctx2 : Context)
    (opts1 opts2 : List QueryOption) (r1 r2 : Request) (resp1 resp2 : HTTPResponse)
    (body1 body2 : List UInt8)
    (hr1 : r1 ∈ (s1.Get lib ctx1 opts1).sent)
    (hc1 : s1.client.client ctx1 r1 = RoundTrip.response resp1 ⟨body1, none, none⟩)
    (hr2 : r2 ∈ (s2.Get lib ctx2 opts2).sent)
    (hc2 : s2.client.client ctx2 r2 = RoundTrip.response resp2 ⟨body2, none, none⟩) :
    (∀ ms1 ms2 : List (String × JSON),
      sc.scan body1 = Except.ok (JSON.object (ms1 ++ ms2)) →
      sc.scan body2 = Except.ok (JSON.object (ms1 ++ ("as", zeroAS) :: ms2)) →
      (∀ m ∈ ms1 ++ ms2, foldName m.1 ≠ foldName "as") →
      ∃ (g : Option GeoIPResponse) (e : Option Error) (raw1 raw2 : Option Response),
        (s1.Get lib ctx1 opts1).val = Outcome.returned (g, raw1, e) ∧
        (s2.Get lib ctx2 opts2).val = Outcome.returned (g, raw2, e)) ∧
    (∀ ms1 ms2 ls1 ls2 : List (String × JSON),
      sc.scan body1
        = Except.ok (JSON.object (ms1 ++ ("location", JSON.object (ls1 ++ ls2)) :: ms2)) →
      sc.scan body2
        = Except.ok (JSON.object (ms1 ++
            ("location", JSON.object (ls1 ++ ("geonameId", JSON.number "0") :: ls2))
              :: ms2)) →
      (∀ m ∈ ms1 ++ ms2, foldName m.1 ≠ foldName "location") →
      (∀ m ∈ ls1 ++ ls2, foldName m.1 ≠ foldName "geonameId") →
      ∃ (g : Option GeoIPResponse) (e : Option Error) (raw1 raw2 : Option Response),
        (s1.Get lib ctx1 opts1).val = Outcome.returned (g, raw1, e) ∧
        (s2.Get lib ctx2 opts2).val = Outcome.returned (g, raw2, e)) ∧
    (∀ ms1 ms2 : List (String × JSON),
      sc.scan body1 = Except.ok (JSON.object (ms1 ++ ms2)) →
      sc.scan body2 = Except.ok (JSON.object (ms1 ++ ("domains", JSON.array []) :: ms2)) →
      (∀ m ∈ ms1 ++ ms2, foldName m.1 ≠ foldName "domains") →
      ∀ (g1 : GeoIPResponse) (raw1 : Option Response) (e1 : Option Error),
        (s1.Get lib ctx1 opts1).val = Outcome.returned (some g1, raw1, e1) →
        g1.Domains = none ∧
        (s2.Get lib ctx2 opts2).val
          = Outcome.returned
              (some { g1 with Domains := some [] }, some ⟨some resp2, body2⟩, e1)) := by
  refine ⟨?_, ?_, ?_⟩
  · intro ms1 ms2 hs1 hs2 homit
    apply Get_same_of_parse lib s1 s2 ctx1 ctx2 opts1 opts2 r1 r2 resp1 resp2 body1 body2
      hr1 hc1 hr2 hc2
    rw [parse_of_Decode lib sc hlib body1 _ hs1, parse_of_Decode lib sc hlib body2 _ hs2,
      storeApiResponse_zeroAS sc ms1 ms2 homit]
  · intro ms1 ms2 ls1 ls2 hs1 hs2 hone homit
    apply Get_same_of_parse lib s1 s2 ctx1 ctx2 opts1 opts2 r1 r2 resp1 resp2 body1 body2
      hr1 hc1 hr2 hc2
    rw [parse_of_Decode lib sc hlib body1 _ hs1, parse_of_Decode lib sc hlib body2 _ hs2,
      storeApiResponse_zero_geonameId sc ms1 ms2 ls1 ls2 hone homit]
  · intro ms1 ms2 hs1 hs2 homit g1 raw1 e1
    obtain ⟨hstore, hnil⟩ := storeApiResponse_empty_domains sc ms1 ms2 homit
    rw [Get_val_of_response lib s1 ctx1 opts1 r1 resp1 body1 hr1 hc1,
      Get_val_of_response lib s2 ctx2 opts2 r2 resp2 body2 hr2 hc2,
      parse_of_Decode lib sc hlib body1 _ hs1, parse_of_Decode lib sc hlib body2 _ hs2,
      hstore]
    cases hst : storeApiResponse sc (JSON.object (ms1 ++ ms2)) {} with
    | error err =>
      intro h
      cases h
    | ok a =>
      have hd := hnil a hst
      by_cases hcond : a.Message ≠ "" ∨ a.Code ≠ 0
      · intro h
        simp only [if_pos hcond] at h
        cases h
      · intro h
        simp only [if_neg hcond] at h
        cases h
        refine ⟨hd, ?_⟩
        simp only [Except.map]
        rw [if_neg hcond]

/-- The body with the address alone and the same body with an empty list of domains:
nil against empty. -/
theorem optional_fields_absent_or_zero_witness :
    ({ IP := "8.8.8.8" } : GeoIPResponse).Domains = none ∧
    ((newAPIFor testRespDomainsEmpty).Get testJSONLib background []).val
      = Outcome.returned
          (some { IP := "8.8.8.8", Domains := some [] },
            some ⟨some ⟨200, []⟩, testRespDomainsEmpty⟩, none) :=
  (optional_fields_absent_or_zero testJSONLib testScanner rfl
    (newAPIFor testResp) (newAPIFor testRespDomainsEmpty) background background [] []
    ⟨"GET",
      ⟨"/Geoip/ok",
        (applyOptions [OptionOutputFormat testJSONLib "JSON"]
          (Values.empty.Set "apiKey" "at_LoremIpsumDolorSitAmetConsect").Encode.params).Encode⟩,
      [("Content-Type", mediaType), ("Accept", mediaType), ("User-Agent", userAgent)]⟩
    ⟨"GET",
      ⟨"/Geoip/ok",
        (applyOptions [OptionOutputFormat testJSONLib "JSON"]
          (Values.empty.Set "apiKey" "at_LoremIpsumDolorSitAmetConsect").Encode.params).Encode⟩,
      [("Content-Type", mediaType), ("Accept", mediaType), ("User-Agent", userAgent)]⟩
    ⟨200, []⟩ ⟨200, []⟩ testResp testRespDomainsEmpty
    (List.mem_singleton.mpr rfl) rfl (List.mem_singleton.mpr rfl) rfl).2.2
    [("ip", JSON.string "8.8.8.8")] [] rfl rfl
    (fun m hm => by
      rw [List.append_nil, List.mem_singleton] at hm
      subst hm
      decide)
    { IP := "8.8.8.8" } (some ⟨some ⟨200, []⟩, testResp⟩) none rfl

end simplegeoip
